import Mathlib

/-!
Shallow embedding of the cJSONLogger library (src/src/cJSONLogger.c together
with its public header).  Pure data is modelled directly; the mutable global
state (the `s_g_*` variables) becomes an explicit `GState` record threaded
through the operations.  Wall-clock reads (`clock_gettime`/`localtime_r`) are
explicit inputs, the filesystem is a finite map from paths to file contents,
and the external cJSON collaborator (spec section 6 declares it out of scope)
is modelled as an ordered tree whose nodes carry a list of log records (the
"logs" array; the empty list stands for an absent array) and an ordered list
of named children (cJSON keeps children in a linked list, appended at the
end, so insertion order is preserved).
-/

set_option maxRecDepth 100000

/-- The NUL terminator byte of a C string. -/
def nulChar : Char := Char.ofNat 0

/-- The percent character that opens a conversion in the template. -/
def pctChar : Char := '%'

/-- JNO_CHAR from the header: the node-descent directive digit, ('0' + JNO_ID)
with JNO_ID = 1, i.e. the character 1. -/
def jnoChar : Char := '1'

/-- cJSONLoggerGetLogLevelStr: string for a log level; CRITICAL=1 .. DEBUG=5,
everything else (including the START=0 and END=6 sentinels) is UNKNOWN. -/
def cJSONLoggerGetLogLevelStr (logLevel : Int) : String :=
  if logLevel = 1 then "CRITICAL"
  else if logLevel = 2 then "ERROR"
  else if logLevel = 3 then "WARN"
  else if logLevel = 4 then "INFO"
  else if logLevel = 5 then "DEBUG"
  else "UNKNOWN"

/-- Decimal digits of a positive number, most significant first; the first
argument is fuel making the recursion structural (the value shrinks by a
factor of ten each step, so any fuel at least the value is enough). -/
def natCharsAux : Nat → Nat → List Char
  | 0, _ => []
  | _ + 1, 0 => []
  | fuel + 1, n + 1 =>
    natCharsAux fuel ((n + 1) / 10) ++ [Char.ofNat (48 + (n + 1) % 10)]

/-- Decimal digits of a natural number, most significant first, as printed by
the %d / %ld conversions of snprintf (no zero padding; 0 prints as 0). -/
def natChars (n : Nat) : List Char :=
  if n = 0 then ['0'] else natCharsAux n n

/-- Rendering of a (possibly negative) int by %d. -/
def intChars (n : Int) : List Char :=
  if n < 0 then '-' :: natChars n.natAbs else natChars n.toNat

/-- The broken-down time produced by localtime_r (tm_year is years since
1900, tm_mon is 0-based). -/
structure TmInfo where
  year : Nat
  mon : Nat
  mday : Nat
  hour : Nat
  min : Nat
  sec : Nat
  deriving DecidableEq, Repr

/-- The timestamp string built in cJSONLoggerLog by
snprintf("%d-%d-%d %d:%d:%d.%ld", tm_year+1900, tm_mon+1, tm_mday, tm_hour,
tm_min, tm_sec, tv_nsec): every field is an unpadded decimal. -/
def formatTimeStamp (tm : TmInfo) (nsec : Nat) : List Char :=
  natChars (tm.year + 1900) ++ ['-'] ++ natChars (tm.mon + 1) ++ ['-'] ++
    natChars tm.mday ++ [' '] ++ natChars tm.hour ++ [':'] ++
    natChars tm.min ++ [':'] ++ natChars tm.sec ++ ['.'] ++ natChars nsec

/-- A JSON scalar stored in a log record object. -/
inductive JVal where
  | s (v : String)
  | n (v : Int)
  deriving DecidableEq, Repr

/-- LogInfo_s: per-call record metadata.  NULL char pointers become none. -/
structure LogInfo where
  timeStamp : List Char
  logLevel : Int
  fileName : Option String
  funcName : Option String
  fileLine : Int
  deriving DecidableEq, Repr

/-- The log object built by cJSONLoggerPushLog: Time and LogLevel always,
FileName / FuncName only when the pointer is non-NULL, FileLine only when it
is non-zero, Log only when a message is present.  The list keeps the
insertion order of cJSON_AddItemToObject. -/
def pushedRecord (info : LogInfo) (msg : Option String) : List (String × JVal) :=
  [("Time", JVal.s (String.mk info.timeStamp)),
   ("LogLevel", JVal.s (cJSONLoggerGetLogLevelStr info.logLevel))]
  ++ (match info.fileName with
      | some f => [("FileName", JVal.s f)]
      | none => [])
  ++ (match info.funcName with
      | some g => [("FuncName", JVal.s g)]
      | none => [])
  ++ (if info.fileLine ≠ 0 then [("FileLine", JVal.n info.fileLine)] else [])
  ++ (match msg with
      | some m => [("Log", JVal.s m)]
      | none => [])

/-- The keys present in a pushed log object. -/
def recordKeys (r : List (String × JVal)) : List String := r.map Prod.fst

mutual

/-- The in-memory log tree: a node carries its "logs" array (empty list =
the array was never created) and its named children in insertion order. -/
inductive JTree where
  | node (logs : List (List (String × JVal))) (children : JForest)

/-- Ordered list of named child nodes (the cJSON child linked list). -/
inductive JForest where
  | nil
  | cons (name : String) (child : JTree) (rest : JForest)

end

/-- A fresh empty object node, as made by cJSON_CreateObject. -/
def emptyTree : JTree := JTree.node [] JForest.nil

/-- Find a child by name (cJSON_GetObjectItem on the child list). -/
def forestFind : JForest → String → Option JTree
  | JForest.nil, _ => none
  | JForest.cons m c rest, n => if m = n then some c else forestFind rest n

/-- cJSON_HasObjectItem on the child list. -/
def forestHas (f : JForest) (n : String) : Bool := (forestFind f n).isSome

/-- Replace the first child of the given name, keeping its position. -/
def forestReplace : JForest → String → JTree → JForest
  | JForest.nil, _, _ => JForest.nil
  | JForest.cons m c rest, n, t =>
    if m = n then JForest.cons m t rest
    else JForest.cons m c (forestReplace rest n t)

/-- Append a new named child at the end (cJSON_AddItemToObject). -/
def forestAppendChild : JForest → String → JTree → JForest
  | JForest.nil, n, t => JForest.cons n t JForest.nil
  | JForest.cons m c rest, n, t => JForest.cons m c (forestAppendChild rest n t)

/-- Apply f to the node reached by the path of child names; if the path does
not exist the tree is unchanged.  (The C code works with a direct pointer to
the node; the path plays the role of that pointer.) -/
def modifyAt : JTree → List String → (JTree → JTree) → JTree
  | t, [], f => f t
  | JTree.node logs ch, n :: ns, f =>
    match forestFind ch n with
    | some c => JTree.node logs (forestReplace ch n (modifyAt c ns f))
    | none => JTree.node logs ch

/-- createJsonObject: reuse the existing child of that name, else create an
empty object child and append it in insertion order. -/
def createJsonObjectAt (t : JTree) (path : List String) (name : String) : JTree :=
  modifyAt t path fun nd =>
    match nd with
    | JTree.node logs ch =>
      if forestHas ch name then JTree.node logs ch
      else JTree.node logs (forestAppendChild ch name emptyTree)

/-- The tree part of cJSONLoggerPushLog: create the "logs" array if absent
and append the record at its end. -/
def appendRecordAt (t : JTree) (path : List String) (r : List (String × JVal)) : JTree :=
  modifyAt t path fun nd =>
    match nd with
    | JTree.node logs ch => JTree.node (logs ++ [r]) ch

/-- Walk a path of child names. -/
def getNodeAt : JTree → List String → Option JTree
  | t, [] => some t
  | JTree.node _ ch, n :: ns =>
    match forestFind ch n with
    | some c => getNodeAt c ns
    | none => none

/-- Number of records in the "logs" array at the given path (0 when the path
is missing). -/
def recordsAt (t : JTree) (path : List String) : Nat :=
  match getNodeAt t path with
  | some (JTree.node logs _) => logs.length
  | none => 0

/-- Queue_s: ring buffer of rotated file paths (MAX_LOG_ROTATION_FILES = 5),
calloc gives NULL slots and zero indices. -/
structure Queue where
  rotatedFiles : List (Option String)
  head : Nat
  tail : Nat
  currentSize : Nat
  deriving DecidableEq, Repr

/-- The queue as produced by calloc(1, sizeof(Queue_s)). -/
def emptyQueue : Queue := ⟨List.replicate 5 none, 0, 0, 0⟩

/-- The registry step of cJSONLoggerRotate (lines 544-562): below capacity
the new path is stored at the tail; at capacity the head entry is evicted
(and returned so its file can be removed from disk) and the new path is NOT
stored anywhere. -/
def rotateRegistry (q : Queue) (newPath : String) : Queue × Option String :=
  if q.currentSize < 5 then
    (⟨q.rotatedFiles.set q.tail (some newPath), q.head, (q.tail + 1) % 5,
      q.currentSize + 1⟩, none)
  else
    (⟨q.rotatedFiles.set q.head none, (q.head + 1) % 5, q.tail,
      q.currentSize - 1⟩, q.rotatedFiles.getD q.head none)

/-- Contents of a file on disk: none models a file that was opened with mode
w but never written (empty), some t models a file holding the pretty-printed
serialization of the tree t (the external serializer is injective, so the
tree itself stands for the text). -/
def FileContent := Option JTree

/-- The filesystem: finite map from paths to contents. -/
def Disk := List (String × Option JTree)

/-- remove(path). -/
def diskRemove (d : Disk) (p : String) : Disk :=
  d.filter fun e => e.1 ≠ p

/-- fopen(path, "w") followed by writing the given contents. -/
def diskWrite (d : Disk) (p : String) (c : Option JTree) : Disk :=
  (d.filter fun e => e.1 ≠ p) ++ [(p, c)]

/-- Look up a file. -/
def diskGet (d : Disk) (p : String) : Option (Option JTree) :=
  match d.find? fun e => e.1 = p with
  | some e => some e.2
  | none => none

/-- The global state of the logger: the s_g_ variables plus the filesystem.
s_g_logLevel starts at the START sentinel 0. -/
structure GState where
  rootNode : Option JTree
  filePath : Option String
  logLevel : Int
  logCount : Nat
  queue : Option Queue
  disk : Disk

/-- A fresh process: every global is NULL / zero and the disk is empty. -/
def initialState : GState := ⟨none, none, 0, 0, none, []⟩

/-- The rotated-file time string from cJSONLoggerRotate,
snprintf("%d_%d_%d_%ld", tm_hour, tm_min, tm_sec, tv_nsec). -/
def rotateTimeStr (tm : TmInfo) (ns : Nat) : List Char :=
  natChars tm.hour ++ ['_'] ++ natChars tm.min ++ ['_'] ++
    natChars tm.sec ++ ['_'] ++ natChars ns

/-- snprintf(rotatedFilePath, len, "%s_%s", timeStr, s_g_filePath). -/
def rotatedPathOf (tm : TmInfo) (ns : Nat) (fp : String) : String :=
  String.mk (rotateTimeStr tm ns) ++ "_" ++ fp

/-- Outcome of cJSONLoggerRotate.  nullPathUB marks the strlen(NULL) reached
when s_g_filePath is NULL (no guard exists in the code); it carries the state
as already mutated before the fault (counter reset, queue allocated). -/
inductive RotateResult where
  | ok (st : GState)
  | nullPathUB (st : GState)

/-- cJSONLoggerRotate.  The wall clock is an input; pOk tells whether the
cJSON_Print allocation succeeds (its failure is the write-failure mode: the
file stays empty).  A failing fopen is not modelled: in release builds the
subsequent fprintf(NULL, ...) is undefined behavior.  Order mirrors the
source: counter reset, queue allocation, path build, registry step with
eviction and disk delete, fopen (creating the empty file), then serialize,
destroy and replace the root, and finally write. -/
def cJSONLoggerRotate (st : GState) (tm : TmInfo) (ns : Nat) (pOk : Bool) :
    RotateResult :=
  let q0 := st.queue.getD emptyQueue
  let st1 : GState := { st with logCount := 0, queue := some q0 }
  match st.filePath with
  | none => RotateResult.nullPathUB st1
  | some fp =>
    let rp := rotatedPathOf tm ns fp
    let qe := rotateRegistry q0 rp
    let disk1 :=
      match qe.2 with
      | some e => diskRemove st1.disk e
      | none => st1.disk
    let disk2 := diskWrite disk1 rp none
    match st1.rootNode, pOk with
    | some r, true =>
      let disk3 := diskWrite disk2 rp (some r)
      RotateResult.ok
        { st1 with queue := some qe.1, disk := disk3, rootNode := some emptyTree }
    | some _, false =>
      RotateResult.ok
        { st1 with queue := some qe.1, disk := disk2, rootNode := some emptyTree }
    | none, _ =>
      RotateResult.ok { st1 with queue := some qe.1, disk := disk2 }

/-- cJSONLoggerRotate with the UB case collapsed to its partial state; used
where the C code calls the function and continues (that case is unreachable
through the public API, where a non-NULL root implies a non-NULL path). -/
def rotateTotal (st : GState) (tm : TmInfo) (ns : Nat) (pOk : Bool) : GState :=
  match cJSONLoggerRotate st tm ns pOk with
  | RotateResult.ok s => s
  | RotateResult.nullPathUB s => s

/-- cJSONLoggerPushLog: append the record at the node, bump the counter and
rotate when it exceeds MAX_LOG_COUNT = 500. -/
def cJSONLoggerPushLog (st : GState) (path : List String) (info : LogInfo)
    (logMsg : String) (tm : TmInfo) (ns : Nat) (pOk : Bool) : GState :=
  let st1 : GState :=
    { st with rootNode :=
        st.rootNode.map fun r => appendRecordAt r path (pushedRecord info (some logMsg)) }
  if st1.logCount + 1 > 500 then
    rotateTotal { st1 with logCount := st1.logCount + 1 } tm ns pOk
  else { st1 with logCount := st1.logCount + 1 }

/-- A variadic argument. -/
inductive CArg where
  | str (s : String)
  | int (n : Int)
  deriving DecidableEq, Repr

/-- va_arg(args, char*).  A missing or mismatched argument is caller
undefined behavior (spec section 4.2); totalized as the empty string. -/
def takeStrArg : List CArg → String × List CArg
  | CArg.str s :: rest => (s, rest)
  | CArg.int _ :: rest => ("", rest)
  | [] => ("", [])

/-- va_arg(args, int), totalized like takeStrArg. -/
def takeIntArg : List CArg → Int × List CArg
  | CArg.int n :: rest => (n, rest)
  | CArg.str _ :: rest => (0, rest)
  | [] => (0, [])

/-- strlen on the accumulated buffer: the part before the first NUL byte. -/
def effBuf (l : List Char) : List Char := l.takeWhile fun c => c ≠ nulChar

/-- strlen of a template given as its byte list. -/
def strlenChars (l : List Char) : Nat := (effBuf l).length

/-- vsnprintf on a fragment: renders %s and %d from the argument list, keeps
%% as a single percent, and for any other conversion consumes one argument
and keeps the two characters verbatim (an abstraction: no claim depends on
the rendered text of such conversions, only on argument consumption). -/
def renderFmt : List Char → List CArg → List Char × List CArg
  | [], as => ([], as)
  | '%' :: '%' :: rest, as =>
    let r := renderFmt rest as
    ('%' :: r.1, r.2)
  | '%' :: 's' :: rest, as =>
    let a := takeStrArg as
    let r := renderFmt rest a.2
    (a.1.data ++ r.1, r.2)
  | '%' :: 'd' :: rest, as =>
    let a := takeIntArg as
    let r := renderFmt rest a.2
    (intChars a.1 ++ r.1, r.2)
  | '%' :: c :: rest, as =>
    let r := renderFmt rest (as.drop 1)
    ('%' :: c :: r.1, r.2)
  | c :: rest, as =>
    let r := renderFmt rest as
    (c :: r.1, r.2)

/-- The state of the template scan in cJSONLoggerLog: the globals, the
current node (as a path from the root, playing the role of the node
pointer), the fragment buffer logMsgFmt, the remaining variadic arguments,
the per-call LogInfo, and a ghost trace of the (path, record) emissions. -/
structure ScanSt where
  st : GState
  path : List String
  buf : List Char
  args : List CArg
  info : LogInfo
  emits : List (List String × List (String × JVal))

/-- Emit the accumulated fragment as a record at the current node: format it
against the remaining arguments, push the record, clear the buffer. -/
def emitStep (tm : TmInfo) (ns : Nat) (pOk : Bool) (s : ScanSt) : ScanSt :=
  let m := renderFmt (effBuf s.buf) s.args
  let r := pushedRecord s.info (some (String.mk m.1))
  { s with
    st := cJSONLoggerPushLog s.st s.path s.info (String.mk m.1) tm ns pOk,
    args := m.2, buf := [],
    emits := s.emits ++ [(s.path, r)] }

/-- The JNO_CHAR case of the scan (lines 453-467): flush the fragment if
strlen is non-zero, then consume the next argument as a node name and
descend, reusing or creating the child. -/
def flushDescend (tm : TmInfo) (ns : Nat) (pOk : Bool) (s : ScanSt) : ScanSt :=
  let s1 := if effBuf s.buf = [] then s else emitStep tm ns pOk s
  let na := takeStrArg s1.args
  { s1 with
    st := { s1.st with rootNode :=
      s1.st.rootNode.map fun r => createJsonObjectAt r s1.path na.1 },
    args := na.2, path := s1.path ++ [na.1] }

/-- The flush after the loop (lines 484-489). -/
def finalFlush (tm : TmInfo) (ns : Nat) (pOk : Bool) (s : ScanSt) : ScanSt :=
  if effBuf s.buf = [] then s else emitStep tm ns pOk s

/-- Result of the scan: done means the loop exited at a NUL byte inside the
provided memory; oob means the read pointer ran past the provided memory
(an out-of-bounds read in C). -/
inductive ScanResult where
  | done (s : ScanSt)
  | oob (s : ScanSt)

/-- Whether the scan terminated inside the provided memory. -/
def ScanResult.isDone : ScanResult → Bool
  | ScanResult.done _ => true
  | ScanResult.oob _ => false

/-- The state carried by a scan result. -/
def ScanResult.state : ScanResult → ScanSt
  | ScanResult.done s => s
  | ScanResult.oob s => s

/-- The byte-by-byte template loop of cJSONLoggerLog (lines 446-482), run on
the memory starting at the read pointer.  A percent followed by JNO_CHAR
flushes and descends; a percent followed by any other byte (including a NUL:
the loop does not special-case percent-NUL, so the NUL is consumed into the
buffer and the pointer moves past it) appends both bytes; other bytes are
appended.  The loop exits at a NUL seen in the first position. -/
def scanLoop (tm : TmInfo) (ns : Nat) (pOk : Bool) :
    List Char → ScanSt → ScanResult
  | [], s => ScanResult.oob s
  | c :: rest, s =>
    if c = nulChar then ScanResult.done (finalFlush tm ns pOk s)
    else if c = pctChar then
      match rest with
      | [] => ScanResult.oob s
      | d :: rest2 =>
        if d = jnoChar then scanLoop tm ns pOk rest2 (flushDescend tm ns pOk s)
        else scanLoop tm ns pOk rest2 { s with buf := s.buf ++ [pctChar, d] }
    else scanLoop tm ns pOk rest { s with buf := s.buf ++ [c] }

/-- The literal header "$$%s$$%s$$%d$$" injected by the CJSON_LOG macros. -/
def magicChars : List Char := "$$%s$$%s$$%d$$".data

/-- Result of the header check at line 436. -/
structure HeaderParse where
  info : LogInfo
  rest : List Char
  args : List CArg
  deriving Repr

/-- The strncmp header check: when the template starts with the 14 magic
bytes, bind the next three arguments to fileName / funcName / fileLine and
advance the template past the header; otherwise leave everything as is. -/
def parseHeader (info0 : LogInfo) (fmt : List Char) (args : List CArg) :
    HeaderParse :=
  if fmt.take 14 = magicChars then
    let a := takeStrArg args
    let b := takeStrArg a.2
    let c := takeIntArg b.2
    ⟨{ info0 with fileName := some a.1, funcName := some b.1, fileLine := c.1 },
      fmt.drop 14, c.2⟩
  else ⟨info0, fmt, args⟩

/-- cJSONLoggerLog.  Order mirrors the source: the severity gate (drop iff
START < level AND threshold < level AND level < END), the strlen gate
(> MAX_LOG_MSG_LEN - 1 = 255), the NULL-root gate, the timestamp, the header
check, then the scan over the template bytes followed by their NUL
terminator.  When the scan runs off the end of the string (a trailing
unpaired percent consumed the terminator) the C behavior is an out-of-bounds
read; the model stops at the end of the provided memory and keeps the state
reached so far. -/
def cJSONLoggerLog (st : GState) (logLevel : Int) (fmt : List Char)
    (args : List CArg) (tm : TmInfo) (ns : Nat) (pOk : Bool) : GState :=
  if 0 < logLevel ∧ st.logLevel < logLevel ∧ logLevel < 6 then st
  else if 255 < strlenChars fmt then st
  else
    match st.rootNode with
    | none => st
    | some _ =>
      let info0 : LogInfo := ⟨formatTimeStamp tm ns, logLevel, none, none, 0⟩
      let hp := parseHeader info0 fmt args
      (scanLoop tm ns pOk (hp.rest ++ [nulChar])
        ⟨st, [], [], hp.args, hp.info, []⟩).state.st

/-- cJSONLoggerSetLogLevel: accept only levels strictly inside the
(START, END) interval. -/
def cJSONLoggerSetLogLevel (st : GState) (logLevel : Int) : GState :=
  if 0 < logLevel ∧ logLevel < 6 then { st with logLevel := logLevel } else st

/-- cJSONLoggerInit: create the root if absent, set the level through the
same clamp as cJSONLoggerSetLogLevel, replace the primary path.  The atexit
registration is not modelled. -/
def cJSONLoggerInit (st : GState) (logLevel : Int) (fp : String) : GState :=
  let st1 : GState := { st with rootNode := some (st.rootNode.getD emptyTree) }
  let st2 := cJSONLoggerSetLogLevel st1 logLevel
  { st2 with filePath := some fp }

/-- cJSONLoggerDump: cJSON_Print of a NULL root is NULL, so the call returns
without touching the file; otherwise the primary path is truncated and
rewritten with the serialization.  (A NULL primary path with a non-NULL root
is unreachable through the public API and modelled as a no-op; the
serializer is assumed to succeed here.) -/
def cJSONLoggerDump (st : GState) : GState :=
  match st.rootNode with
  | none => st
  | some r =>
    match st.filePath with
    | some fp => { st with disk := diskWrite st.disk fp (some r) }
    | none => st

/-- cJSONLoggerDestroy: dump, then free the root, the path and the queue and
reset counter and level to their uninitialized values. -/
def cJSONLoggerDestroy (st : GState) : GState :=
  let st1 := cJSONLoggerDump st
  { st1 with
      rootNode := none, filePath := none, queue := none,
      logCount := 0, logLevel := 0 }

/-- Number of records in the root "logs" array of the in-memory tree. -/
def rootRecords (st : GState) : Nat :=
  match st.rootNode with
  | some t => recordsAt t []
  | none => 0

/-- Whether a template contains a node directive: a percent byte pairs with
the byte after it, and a pair percent-JNO_CHAR is a directive. -/
def hasDirective : List Char → Bool
  | [] => false
  | c :: rest =>
    if c = pctChar then
      match rest with
      | [] => false
      | d :: rest2 => if d = jnoChar then true else hasDirective rest2
    else hasDirective rest

/-- Whether the template ends in an unpaired percent, i.e. whether the
two-byte consumption of percent pairs lands exactly on a final percent (that
percent then swallows the NUL terminator). -/
def endsUnpairedPct : List Char → Bool
  | [] => false
  | c :: rest =>
    if c = pctChar then
      match rest with
      | [] => true
      | _ :: rest2 => endsUnpairedPct rest2
    else endsUnpairedPct rest

/-- n consecutive node directives. -/
def dirChars : Nat → List Char
  | 0 => []
  | n + 1 => '%' :: '1' :: dirChars n

/-- Zero-pad a decimal rendering on the left to the given width (spec-side
helper for the fixed-width timestamp format). -/
def padChars (w : Nat) (n : Nat) : List Char :=
  List.replicate (w - (natChars n).length) '0' ++ natChars n

/-- Modelled from the spec: the fixed-width zero-padded timestamp
YYYY-MM-DD HH:MM:SS.NNNNNNNNN that the spec says every Time field uses (two
digits for month, day, hour, minute, second; nine for nanoseconds). -/
def specPaddedTimeStamp (tm : TmInfo) (nsec : Nat) : List Char :=
  padChars 4 (tm.year + 1900) ++ ['-'] ++ padChars 2 (tm.mon + 1) ++ ['-'] ++
    padChars 2 tm.mday ++ [' '] ++ padChars 2 tm.hour ++ [':'] ++
    padChars 2 tm.min ++ [':'] ++ padChars 2 tm.sec ++ ['.'] ++
    padChars 9 nsec

/-- A concrete wall-clock reading: 2025-08-26 09:05:03, tv_nsec = varies. -/
def tmA : TmInfo := ⟨125, 7, 26, 9, 5, 3⟩

/-- The logger right after cJSONLoggerInit(CJSON_LOG_LEVEL_INFO, "log.json")
in a fresh process. -/
def activeState : GState := cJSONLoggerInit initialState 4 "log.json"

/-- An in-memory tree holding one record at the root. -/
def treeOne : JTree := JTree.node [[("Time", JVal.s "t")]] JForest.nil

/-- An active logger whose tree holds one record. -/
def c2State : GState := { activeState with rootNode := some treeOne }

/-- diskRemove applied to an optional eviction result. -/
def diskRemoveOpt (d : Disk) (e : Option String) : Disk :=
  match e with
  | some p => diskRemove d p
  | none => d

/-- Dropping a call at the severity gate returns the state unchanged. -/
theorem log_drops_above_threshold (st : GState) (logLevel : Int)
    (fmt : List Char) (args : List CArg) (tm : TmInfo) (ns : Nat) (pOk : Bool)
    (h1 : 0 < logLevel) (h2 : st.logLevel < logLevel) (h3 : logLevel < 6) :
    cJSONLoggerLog st logLevel fmt args tm ns pOk = st := by
  unfold cJSONLoggerLog
  rw [if_pos ⟨h1, h2, h3⟩]

/-- C7: a template longer than 255 bytes is silently dropped: log returns
with the whole state (tree included) unchanged, whatever the level,
arguments or clock; the strlen gate sits before the header check, so the
bound applies to the full template, header included. -/
theorem c7_long_template_dropped (st : GState) (logLevel : Int)
    (fmt : List Char) (args : List CArg) (tm : TmInfo) (ns : Nat) (pOk : Bool)
    (h : 255 < strlenChars fmt) :
    cJSONLoggerLog st logLevel fmt args tm ns pOk = st := by
  unfold cJSONLoggerLog
  by_cases hf : 0 < logLevel ∧ st.logLevel < logLevel ∧ logLevel < 6
  · rw [if_pos hf]
  · rw [if_neg hf, if_pos h]

/-- Witness for C7: a 256-byte template (236 user bytes behind the 14-byte
header plus 6 more) is dropped even though the user part alone fits. -/
theorem c7_long_template_dropped_witness :
    255 < strlenChars (magicChars ++ List.replicate 242 'a') ∧
    cJSONLoggerLog activeState 4 (magicChars ++ List.replicate 242 'a')
      [CArg.str "f", CArg.str "g", CArg.int 3] tmA 0 true = activeState :=
  ⟨by decide,
   c7_long_template_dropped activeState 4 (magicChars ++ List.replicate 242 'a')
     [CArg.str "f", CArg.str "g", CArg.int 3] tmA 0 true (by decide)⟩

/-- C3: log and dump are indeed no-ops in the non-Active states, but rotate
is not: called before init (or after destroy, where the primary path has
been freed and nulled) it resets the counter, allocates the registry, and
then reaches strlen(s_g_filePath) with a NULL pointer, which the embedding
surfaces as the nullPathUB outcome carrying the already-mutated state. -/
theorem c3_rotate_not_noop_when_not_active :
    cJSONLoggerLog initialState 1 ['m'] [] tmA 0 true = initialState ∧
    cJSONLoggerDump initialState = initialState ∧
    cJSONLoggerRotate initialState tmA 0 true =
      RotateResult.nullPathUB { initialState with queue := some emptyQueue } ∧
    (cJSONLoggerDestroy (cJSONLoggerLog activeState 4 ['m'] [] tmA 0 true)).filePath
      = none ∧
    cJSONLoggerRotate
        (cJSONLoggerDestroy (cJSONLoggerLog activeState 4 ['m'] [] tmA 0 true))
        tmA 0 true =
      RotateResult.nullPathUB
        { cJSONLoggerDestroy (cJSONLoggerLog activeState 4 ['m'] [] tmA 0 true) with
            queue := some emptyQueue } ∧
    cJSONLoggerLog (cJSONLoggerDestroy activeState) 1 ['m'] [] tmA 0 true =
      cJSONLoggerDestroy activeState :=
  ⟨rfl, rfl, rfl, rfl, rfl, rfl⟩

/-- Looking up a freshly written file yields the written contents. -/
theorem diskGet_write (d : Disk) (p : String) (c : Option JTree) :
    diskGet (diskWrite d p c) p = some c := by
  unfold diskGet diskWrite
  induction d with
  | nil => simp
  | cons e rest ih =>
    by_cases he : e.1 = p
    · simpa [List.filter_cons, he] using ih
    · simpa [List.filter_cons, he] using ih

/-- C2 counterexample: rotating an active logger holding one record while
the serialization of the tree fails (the write failure mode) still replaces
the in-memory tree with a fresh empty root; the rotated file exists but is
empty.  This refutes the part of the claim stating that the tree is replaced
only after a successful write and kept on failure. -/
theorem c2_write_failure_still_clears_tree_cex :
    rootRecords c2State = 1 ∧
    (rotateTotal c2State tmA 0 false).rootNode = some emptyTree ∧
    rootRecords (rotateTotal c2State tmA 0 false) = 0 ∧
    diskGet (rotateTotal c2State tmA 0 false).disk
      (rotatedPathOf tmA 0 "log.json") = some none :=
  ⟨rfl, rfl, rfl, rfl⟩

/-- C2 amended: during rotate the eviction and disk-deletion of the oldest
registry entry completes before the rotated file is opened and written (the
delete is applied to the disk before the open and the write), but the
in-memory tree is serialized and replaced with a fresh empty root BEFORE the
rotated file is written, unconditionally: when the write fails (serialization
failure), the rotated file is left behind empty and the tree has still been
cleared, so the buffered records are lost rather than retained. -/
theorem c2_rotate_order_amended (st : GState) (fp : String) (r : JTree)
    (tm : TmInfo) (ns : Nat) (pOk : Bool)
    (hf : st.filePath = some fp) (hr : st.rootNode = some r) :
    rotateTotal st tm ns pOk =
      { st with
          logCount := 0,
          queue := some (rotateRegistry (st.queue.getD emptyQueue)
            (rotatedPathOf tm ns fp)).1,
          rootNode := some emptyTree,
          disk :=
            if pOk then
              diskWrite
                (diskWrite
                  (diskRemoveOpt st.disk
                    (rotateRegistry (st.queue.getD emptyQueue)
                      (rotatedPathOf tm ns fp)).2)
                  (rotatedPathOf tm ns fp) none)
                (rotatedPathOf tm ns fp) (some r)
            else
              diskWrite
                (diskRemoveOpt st.disk
                  (rotateRegistry (st.queue.getD emptyQueue)
                    (rotatedPathOf tm ns fp)).2)
                (rotatedPathOf tm ns fp) none } ∧
    (pOk = false →
      diskGet (rotateTotal st tm ns pOk).disk (rotatedPathOf tm ns fp) =
        some none) := by
  unfold rotateTotal cJSONLoggerRotate diskRemoveOpt
  rw [hf]
  cases pOk with
  | true =>
    refine ⟨?_, by simp⟩
    rw [hr]
    rfl
  | false =>
    constructor
    · rw [hr]
      rfl
    · intro hp
      rw [hr]
      exact diskGet_write _ _ _

/-- Witness for C2: the amended rotate equation applied to the concrete
active one-record state with a successful write. -/
theorem c2_rotate_order_amended_witness :
    (rotateTotal c2State tmA 0 true).rootNode = some emptyTree := by
  rw [(c2_rotate_order_amended c2State "log.json" treeOne tmA 0 true rfl rfl).1]

/-- The fuel recursion agrees with the little-endian digit expansion once the
fuel covers the value. -/
theorem natCharsAux_eq_digits (fuel : Nat) :
    ∀ n : Nat, n ≤ fuel →
      natCharsAux fuel n = (Nat.digits 10 n).reverse.map fun d => Char.ofNat (48 + d) := by
  induction fuel with
  | zero =>
    intro n hn
    have : n = 0 := Nat.le_zero.mp hn
    subst this
    simp [natCharsAux]
  | succ f ih =>
    intro n hn
    cases n with
    | zero => simp [natCharsAux]
    | succ m =>
      have hdiv : (m + 1) / 10 ≤ f := by
        have h1 : (m + 1) / 10 < m + 1 := Nat.div_lt_self (Nat.succ_pos m) (by norm_num)
        omega
      rw [natCharsAux, ih ((m + 1) / 10) hdiv,
        Nat.digits_def' (by norm_num : (1 : ℕ) < 10) (Nat.succ_pos m)]
      simp

/-- natChars of a positive value is its decimal digit list. -/
theorem natChars_eq_digits (n : Nat) (h : n ≠ 0) :
    natChars n = (Nat.digits 10 n).reverse.map fun d => Char.ofNat (48 + d) := by
  unfold natChars
  rw [if_neg h]
  exact natCharsAux_eq_digits n n le_rfl

/-- Length of the decimal rendering of a positive value. -/
theorem natChars_length (n : Nat) (h : n ≠ 0) :
    (natChars n).length = Nat.log 10 n + 1 := by
  rw [natChars_eq_digits n h]
  simp [Nat.digits_len 10 n (by norm_num) h]

/-- A value below ten renders with one digit. -/
theorem natChars_len_of_lt {n : Nat} (h : n < 10) : (natChars n).length = 1 := by
  rcases Nat.eq_zero_or_pos n with h0 | h0
  · subst h0; rfl
  · rw [natChars_length n (Nat.pos_iff_ne_zero.mp h0)]
    have : Nat.log 10 n = 0 := Nat.log_eq_zero_iff.mpr (Or.inl h)
    omega

/-- Exact digit count from a power-of-ten sandwich. -/
theorem natChars_len_of_bounds (n k : Nat) (h1 : 10 ^ k ≤ n) (h2 : n < 10 ^ (k + 1)) :
    (natChars n).length = k + 1 := by
  have hn : n ≠ 0 := by
    have : 0 < 10 ^ k := Nat.pos_pow_of_pos k (by norm_num)
    omega
  rw [natChars_length n hn, Nat.log_eq_of_pow_le_of_lt_pow h1 h2]

/-- Digit-count upper bound from a power-of-ten bound. -/
theorem natChars_len_le (n k : Nat) (hk : 1 ≤ k) (h : n < 10 ^ k) :
    (natChars n).length ≤ k := by
  rcases eq_or_ne n 0 with h0 | h0
  · subst h0; simpa [natChars] using hk
  · rw [natChars_length n h0]
    have := Nat.log_lt_of_lt_pow h0 h
    omega

/-- The rendering is never empty. -/
theorem natChars_len_pos (n : Nat) : 1 ≤ (natChars n).length := by
  rcases eq_or_ne n 0 with h0 | h0
  · subst h0; simp [natChars]
  · rw [natChars_length n h0]; omega

/-- Padding to a covering width gives exactly that width. -/
theorem padChars_length {w n : Nat} (h : (natChars n).length ≤ w) :
    (padChars w n).length = w := by
  unfold padChars
  simp only [List.length_append, List.length_replicate]
  omega

/-- Padding is the identity at full width. -/
theorem padChars_eq_natChars {w n : Nat} (h : (natChars n).length = w) :
    padChars w n = natChars n := by
  unfold padChars
  rw [h]
  simp

/-- C8 counterexample: at the valid instant 2025-08-26 09:05:03.000000005
(tm_mon = 7, i.e. month 8) the %d-based snprintf renders the Time field as
2025-8-26 9:5:3.5, not as the fixed-width zero-padded form the claim
states. -/
theorem c8_time_not_padded_cex :
    String.mk (formatTimeStamp tmA 5) = "2025-8-26 9:5:3.5" ∧
    formatTimeStamp tmA 5 ≠ specPaddedTimeStamp tmA 5 ∧
    String.mk (specPaddedTimeStamp tmA 5) = "2025-08-26 09:05:03.000000005" := by
  refine ⟨rfl, by decide, rfl⟩

/-- C8 amended: the Time field is rendered with every numeric component in
minimal decimal digits (no zero padding); over the valid calendar ranges it
coincides with the fixed-width zero-padded YYYY-MM-DD HH:MM:SS.NNNNNNNNN
form exactly when month, day, hour, minute and second are all at least 10
and the nanosecond part is at least 100000000. -/
theorem c8_time_format_amended (tm : TmInfo) (ns : Nat)
    (hy1 : 1000 ≤ tm.year + 1900) (hy2 : tm.year + 1900 < 10000)
    (hmon : tm.mon + 1 ≤ 12) (hd : tm.mday ≤ 31) (hh : tm.hour ≤ 23)
    (hmi : tm.min ≤ 59) (hsec : tm.sec ≤ 60) (hns : ns < 1000000000) :
    formatTimeStamp tm ns = specPaddedTimeStamp tm ns ↔
      (10 ≤ tm.mon + 1 ∧ 10 ≤ tm.mday ∧ 10 ≤ tm.hour ∧ 10 ≤ tm.min ∧
        10 ≤ tm.sec ∧ 100000000 ≤ ns) := by
  have p1 : (10 : ℕ) ^ 1 = 10 := by norm_num
  have p2 : (10 : ℕ) ^ 2 = 100 := by norm_num
  have p3 : (10 : ℕ) ^ 3 = 1000 := by norm_num
  have p8 : (10 : ℕ) ^ 8 = 100000000 := by norm_num
  have p9 : (10 : ℕ) ^ 9 = 1000000000 := by norm_num
  have q2 : (10 : ℕ) ^ (1 + 1) = 100 := by norm_num
  have q4 : (10 : ℕ) ^ (3 + 1) = 10000 := by norm_num
  have q9 : (10 : ℕ) ^ (8 + 1) = 1000000000 := by norm_num
  have hyl : (natChars (tm.year + 1900)).length = 4 :=
    natChars_len_of_bounds (tm.year + 1900) 3 (by omega) (by omega)
  have l2 : (natChars (tm.mon + 1)).length ≤ 2 :=
    natChars_len_le (tm.mon + 1) 2 (by omega) (by omega)
  have l3 : (natChars tm.mday).length ≤ 2 :=
    natChars_len_le tm.mday 2 (by omega) (by omega)
  have l4 : (natChars tm.hour).length ≤ 2 :=
    natChars_len_le tm.hour 2 (by omega) (by omega)
  have l5 : (natChars tm.min).length ≤ 2 :=
    natChars_len_le tm.min 2 (by omega) (by omega)
  have l6 : (natChars tm.sec).length ≤ 2 :=
    natChars_len_le tm.sec 2 (by omega) (by omega)
  have l9 : (natChars ns).length ≤ 9 :=
    natChars_len_le ns 9 (by omega) (by omega)
  constructor
  · intro h
    have hlen := congrArg List.length h
    simp only [formatTimeStamp, specPaddedTimeStamp, List.length_append,
      List.length_cons, List.length_nil, padChars_length hyl.le,
      padChars_length l2, padChars_length l3, padChars_length l4,
      padChars_length l5, padChars_length l6, padChars_length l9] at hlen
    have e2 : (natChars (tm.mon + 1)).length = 2 := by omega
    have e3 : (natChars tm.mday).length = 2 := by omega
    have e4 : (natChars tm.hour).length = 2 := by omega
    have e5 : (natChars tm.min).length = 2 := by omega
    have e6 : (natChars tm.sec).length = 2 := by omega
    have e9 : (natChars ns).length = 9 := by omega
    refine ⟨?_, ?_, ?_, ?_, ?_, ?_⟩
    · by_contra hlt
      rw [natChars_len_of_lt (by omega)] at e2
      omega
    · by_contra hlt
      rw [natChars_len_of_lt (by omega)] at e3
      omega
    · by_contra hlt
      rw [natChars_len_of_lt (by omega)] at e4
      omega
    · by_contra hlt
      rw [natChars_len_of_lt (by omega)] at e5
      omega
    · by_contra hlt
      rw [natChars_len_of_lt (by omega)] at e6
      omega
    · by_contra hlt
      have : (natChars ns).length ≤ 8 := natChars_len_le ns 8 (by omega) (by omega)
      omega
  · rintro ⟨h2, h3, h4, h5, h6, h9⟩
    have e2 : (natChars (tm.mon + 1)).length = 2 :=
      natChars_len_of_bounds (tm.mon + 1) 1 (by omega) (by omega)
    have e3 : (natChars tm.mday).length = 2 :=
      natChars_len_of_bounds tm.mday 1 (by omega) (by omega)
    have e4 : (natChars tm.hour).length = 2 :=
      natChars_len_of_bounds tm.hour 1 (by omega) (by omega)
    have e5 : (natChars tm.min).length = 2 :=
      natChars_len_of_bounds tm.min 1 (by omega) (by omega)
    have e6 : (natChars tm.sec).length = 2 :=
      natChars_len_of_bounds tm.sec 1 (by omega) (by omega)
    have e9 : (natChars ns).length = 9 :=
      natChars_len_of_bounds ns 8 (by omega) (by omega)
    unfold formatTimeStamp specPaddedTimeStamp
    rw [padChars_eq_natChars hyl, padChars_eq_natChars e2,
      padChars_eq_natChars e3, padChars_eq_natChars e4,
      padChars_eq_natChars e5, padChars_eq_natChars e6,
      padChars_eq_natChars e9]

/-- Witness for C8: at 2025-11-26 12:30:45.123456789 every component is at
full width and the unpadded rendering coincides with the padded form. -/
theorem c8_time_format_amended_witness :
    formatTimeStamp ⟨125, 10, 26, 12, 30, 45⟩ 123456789 =
      specPaddedTimeStamp ⟨125, 10, 26, 12, 30, 45⟩ 123456789 :=
  (c8_time_format_amended ⟨125, 10, 26, 12, 30, 45⟩ 123456789
    (by norm_num) (by norm_num) (by norm_num) (by norm_num) (by norm_num)
    (by norm_num) (by norm_num) (by norm_num)).mpr
    (by norm_num)

/-- States with the same root hold the same number of root records. -/
theorem rootRecords_congr {s1 s2 : GState} (h : s1.rootNode = s2.rootNode) :
    rootRecords s1 = rootRecords s2 := by
  unfold rootRecords
  rw [h]

/-- C1 counterexample: with the threshold configured at INFO (4), a call at
the END sentinel level 6 — which is above the threshold and outside the open
(START, END) interval, so the claim says it must leave the tree unchanged —
passes the filter (the guard only drops levels with START < L < END) and
appends a record (rendered with level UNKNOWN) to the tree. -/
theorem c1_end_sentinel_accepted_cex :
    activeState.logLevel = 4 ∧
    rootRecords activeState = 0 ∧
    rootRecords (cJSONLoggerLog activeState 6 ['m'] [] tmA 0 true) = 1 ∧
    (cJSONLoggerLog activeState 6 ['m'] [] tmA 0 true).rootNode ≠
      activeState.rootNode :=
  ⟨rfl, rfl, rfl, fun h => absurd (rootRecords_congr h) (by decide)⟩

/-- C1 amended: while Active with a validly configured threshold T, a log
call (with a one-record template) is dropped by the severity gate iff
START < L AND T < L AND L < END; equivalently it reaches the tree iff L ≤ T
or L lies outside the open (START, END) interval.  Valid levels above the
threshold do leave the tree unchanged, but the START and END sentinels (and
any level beyond them) are accepted and appended as UNKNOWN records. -/
theorem c1_level_filter_amended (t l : Int) (h1 : 0 < t) (h2 : t < 6) :
    rootRecords (cJSONLoggerLog (cJSONLoggerSetLogLevel activeState t) l
        ['m'] [] tmA 0 true) =
      (if 0 < l ∧ t < l ∧ l < 6 then 0 else 1) ∧
    (0 < l → t < l → l < 6 →
      cJSONLoggerLog (cJSONLoggerSetLogLevel activeState t) l ['m'] [] tmA 0 true =
        cJSONLoggerSetLogLevel activeState t) ∧
    rootRecords (cJSONLoggerSetLogLevel activeState t) = 0 := by
  have hs : cJSONLoggerSetLogLevel activeState t = { activeState with logLevel := t } := by
    unfold cJSONLoggerSetLogLevel
    rw [if_pos ⟨h1, h2⟩]
  refine ⟨?_, ?_, ?_⟩
  · rw [hs]
    by_cases hc : 0 < l ∧ t < l ∧ l < 6
    · rw [if_pos hc]
      have hd : cJSONLoggerLog { activeState with logLevel := t } l ['m'] [] tmA 0 true =
          { activeState with logLevel := t } :=
        log_drops_above_threshold _ _ _ _ _ _ _ hc.1 hc.2.1 hc.2.2
      rw [hd]
      rfl
    · rw [if_neg hc]
      unfold cJSONLoggerLog
      rw [if_neg (show ¬(0 < l ∧
          ({ activeState with logLevel := t } : GState).logLevel < l ∧ l < 6) from hc)]
      rfl
  · intro p1 p2 p3
    rw [hs]
    exact log_drops_above_threshold _ _ _ _ _ _ _ p1 p2 p3
  · rw [hs]
    rfl

/-- Witness for C1 amended: threshold INFO, level DEBUG (valid, above the
threshold) is dropped. -/
theorem c1_level_filter_amended_witness :
    rootRecords (cJSONLoggerLog (cJSONLoggerSetLogLevel activeState 4) 5
        ['m'] [] tmA 0 true) =
      (if (0 : Int) < 5 ∧ (4 : Int) < 5 ∧ (5 : Int) < 6 then 0 else 1) :=
  (c1_level_filter_amended 4 5 (by norm_num) (by norm_num)).1

/-- Unfolding equation of the scan on empty memory. -/
theorem scanLoop_nil (tm : TmInfo) (ns : Nat) (pOk : Bool) (s : ScanSt) :
    scanLoop tm ns pOk [] s = ScanResult.oob s := rfl

/-- Unfolding equation of the scan on one byte of lookahead. -/
theorem scanLoop_cons (tm : TmInfo) (ns : Nat) (pOk : Bool) (c : Char)
    (rest : List Char) (s : ScanSt) :
    scanLoop tm ns pOk (c :: rest) s =
      if c = nulChar then ScanResult.done (finalFlush tm ns pOk s)
      else if c = pctChar then
        match rest with
        | [] => ScanResult.oob s
        | d :: rest2 =>
          if d = jnoChar then scanLoop tm ns pOk rest2 (flushDescend tm ns pOk s)
          else scanLoop tm ns pOk rest2 { s with buf := s.buf ++ [pctChar, d] }
      else scanLoop tm ns pOk rest { s with buf := s.buf ++ [c] } := by
  cases rest with
  | nil => rfl
  | cons d rest2 => rfl

/-- The per-call LogInfo never changes during an emission. -/
theorem emitStep_info (tm : TmInfo) (ns : Nat) (pOk : Bool) (s : ScanSt) :
    (emitStep tm ns pOk s).info = s.info := rfl

/-- The emission trace grows by exactly the record pushed at the current
node. -/
theorem emitStep_emits (tm : TmInfo) (ns : Nat) (pOk : Bool) (s : ScanSt) :
    (emitStep tm ns pOk s).emits =
      s.emits ++ [(s.path,
        pushedRecord s.info (some (String.mk (renderFmt (effBuf s.buf) s.args).1)))] := rfl

/-- The per-call LogInfo never changes across a flush-and-descend. -/
theorem flushDescend_info (tm : TmInfo) (ns : Nat) (pOk : Bool) (s : ScanSt) :
    (flushDescend tm ns pOk s).info = s.info := by
  unfold flushDescend
  split <;> rfl

/-- Every emission added by a flush-and-descend is a record built from the
LogInfo of the call, pushed at the then-current node. -/
theorem flushDescend_emits_sub (tm : TmInfo) (ns : Nat) (pOk : Bool) (s : ScanSt)
    (e : List String × List (String × JVal))
    (he : e ∈ (flushDescend tm ns pOk s).emits) :
    e ∈ s.emits ∨ ∃ p m, e = (p, pushedRecord s.info (some m)) := by
  unfold flushDescend at he
  by_cases hb : effBuf s.buf = []
  · rw [if_pos hb] at he
    exact Or.inl he
  · rw [if_neg hb] at he
    rcases List.mem_append.mp he with h | h
    · exact Or.inl h
    · exact Or.inr ⟨s.path, _, List.mem_singleton.mp h⟩

/-- The per-call LogInfo never changes across the terminal flush. -/
theorem finalFlush_info (tm : TmInfo) (ns : Nat) (pOk : Bool) (s : ScanSt) :
    (finalFlush tm ns pOk s).info = s.info := by
  unfold finalFlush
  split <;> rfl

/-- Every emission added by the terminal flush is a record built from the
LogInfo of the call. -/
theorem finalFlush_emits_sub (tm : TmInfo) (ns : Nat) (pOk : Bool) (s : ScanSt)
    (e : List String × List (String × JVal))
    (he : e ∈ (finalFlush tm ns pOk s).emits) :
    e ∈ s.emits ∨ ∃ p m, e = (p, pushedRecord s.info (some m)) := by
  unfold finalFlush at he
  by_cases hb : effBuf s.buf = []
  · rw [if_pos hb] at he
    exact Or.inl he
  · rw [if_neg hb] at he
    rcases List.mem_append.mp he with h | h
    · exact Or.inl h
    · exact Or.inr ⟨s.path, _, List.mem_singleton.mp h⟩

/-- A NUL in first position exits the loop into the terminal flush. -/
theorem scanLoop_nul_head (tm : TmInfo) (ns : Nat) (pOk : Bool)
    (rest : List Char) (s : ScanSt) :
    scanLoop tm ns pOk (nulChar :: rest) s =
      ScanResult.done (finalFlush tm ns pOk s) := by
  rw [scanLoop_cons, if_pos rfl]

/-- A percent as the last provided byte makes the lookahead read past the
provided memory. -/
theorem scanLoop_pct_nil (tm : TmInfo) (ns : Nat) (pOk : Bool) (s : ScanSt) :
    scanLoop tm ns pOk [pctChar] s = ScanResult.oob s := by
  rw [scanLoop_cons, if_neg (by decide : ¬(pctChar = nulChar)), if_pos rfl]

/-- A percent consumes the byte after it: JNO_CHAR flushes and descends, any
other byte (the NUL included) is appended to the buffer together with the
percent. -/
theorem scanLoop_pct_cons (tm : TmInfo) (ns : Nat) (pOk : Bool) (d : Char)
    (rest2 : List Char) (s : ScanSt) :
    scanLoop tm ns pOk (pctChar :: d :: rest2) s =
      if d = jnoChar then scanLoop tm ns pOk rest2 (flushDescend tm ns pOk s)
      else scanLoop tm ns pOk rest2 { s with buf := s.buf ++ [pctChar, d] } := by
  rw [scanLoop_cons, if_neg (by decide : ¬(pctChar = nulChar)), if_pos rfl]

/-- An ordinary byte is appended to the fragment buffer. -/
theorem scanLoop_lit (tm : TmInfo) (ns : Nat) (pOk : Bool) (c : Char)
    (rest : List Char) (s : ScanSt) (hn : ¬c = nulChar) (hp : ¬c = pctChar) :
    scanLoop tm ns pOk (c :: rest) s =
      scanLoop tm ns pOk rest { s with buf := s.buf ++ [c] } := by
  rw [scanLoop_cons, if_neg hn, if_neg hp]

/-- Bounded-length form of the scan-trace invariant: the LogInfo is constant
across the whole scan, and every emission is either inherited or a record
built from that LogInfo. -/
theorem scanLoop_info_emits_aux (tm : TmInfo) (ns : Nat) (pOk : Bool) :
    ∀ (n : Nat) (mem : List Char), mem.length ≤ n → ∀ s : ScanSt,
      (scanLoop tm ns pOk mem s).state.info = s.info ∧
      ∀ e ∈ (scanLoop tm ns pOk mem s).state.emits,
        e ∈ s.emits ∨ ∃ p m, e = (p, pushedRecord s.info (some m)) := by
  intro n
  induction n with
  | zero =>
    intro mem hlen s
    have hm : mem = [] := List.eq_nil_of_length_eq_zero (by omega)
    subst hm
    exact ⟨rfl, fun e he => Or.inl he⟩
  | succ k ih =>
    intro mem hlen s
    match mem with
    | [] => exact ⟨rfl, fun e he => Or.inl he⟩
    | c :: rest =>
      by_cases hn : c = nulChar
      · subst hn
        rw [scanLoop_nul_head]
        exact ⟨finalFlush_info tm ns pOk s, fun e he =>
          finalFlush_emits_sub tm ns pOk s e he⟩
      · by_cases hp : c = pctChar
        · subst hp
          match rest with
          | [] =>
            rw [scanLoop_pct_nil]
            exact ⟨rfl, fun e he => Or.inl he⟩
          | d :: rest2 =>
            have hlen2 : rest2.length ≤ k := by
              simp only [List.length_cons] at hlen
              omega
            rw [scanLoop_pct_cons]
            by_cases hd : d = jnoChar
            · rw [if_pos hd]
              obtain ⟨ih1, ih2⟩ := ih rest2 hlen2 (flushDescend tm ns pOk s)
              refine ⟨by rw [ih1, flushDescend_info], fun e he => ?_⟩
              rcases ih2 e he with h | ⟨p, m, hm⟩
              · exact flushDescend_emits_sub tm ns pOk s e h
              · right
                refine ⟨p, m, ?_⟩
                rw [hm, flushDescend_info]
            · rw [if_neg hd]
              obtain ⟨ih1, ih2⟩ :=
                ih rest2 hlen2 { s with buf := s.buf ++ [pctChar, d] }
              exact ⟨ih1, fun e he => ih2 e he⟩
        · rw [scanLoop_lit tm ns pOk c rest s hn hp]
          have hlen1 : rest.length ≤ k := by
            simp only [List.length_cons] at hlen
            omega
          obtain ⟨ih1, ih2⟩ := ih rest hlen1 { s with buf := s.buf ++ [c] }
          exact ⟨ih1, fun e he => ih2 e he⟩

/-- The scan-trace invariant without the fuel bound. -/
theorem scanLoop_info_emits (tm : TmInfo) (ns : Nat) (pOk : Bool)
    (mem : List Char) (s : ScanSt) :
    (scanLoop tm ns pOk mem s).state.info = s.info ∧
    ∀ e ∈ (scanLoop tm ns pOk mem s).state.emits,
      e ∈ s.emits ∨ ∃ p m, e = (p, pushedRecord s.info (some m)) :=
  scanLoop_info_emits_aux tm ns pOk mem.length mem le_rfl s

/-- A record carries a FileLine key exactly when the bound line is
non-zero. -/
theorem fileLine_key_iff (info : LogInfo) (msg : Option String) :
    "FileLine" ∈ recordKeys (pushedRecord info msg) ↔ info.fileLine ≠ 0 := by
  unfold recordKeys pushedRecord
  rcases hf : info.fileName with _ | f <;> rcases hg : info.funcName with _ | g <;>
    rcases hm : msg with _ | m <;> by_cases hl : info.fileLine = 0 <;>
      simp [hf, hg, hm, hl]

/-- With no bound file name, function name or line, a record carries none of
the three metadata keys. -/
theorem no_meta_keys (info : LogInfo) (msg : Option String)
    (h1 : info.fileName = none) (h2 : info.funcName = none)
    (h3 : info.fileLine = 0) :
    "FileName" ∉ recordKeys (pushedRecord info msg) ∧
    "FuncName" ∉ recordKeys (pushedRecord info msg) ∧
    "FileLine" ∉ recordKeys (pushedRecord info msg) := by
  unfold recordKeys pushedRecord
  rw [h1, h2, h3]
  rcases msg with _ | m <;> simp

/-- C6: the parser consumes the literal header and binds the following three
arguments iff the template begins with the exact 14 magic bytes; without the
header, every record of the call carries no FileName, FuncName or FileLine
key; and a record carries FileLine exactly when the bound line value is
non-zero. -/
theorem c6_header_binding :
    (∀ (info0 : LogInfo) (rest : List Char) (args : List CArg),
      parseHeader info0 (magicChars ++ rest) args =
        ⟨{ info0 with
            fileName := some (takeStrArg args).1,
            funcName := some (takeStrArg (takeStrArg args).2).1,
            fileLine := (takeIntArg (takeStrArg (takeStrArg args).2).2).1 },
          rest, (takeIntArg (takeStrArg (takeStrArg args).2).2).2⟩) ∧
    (∀ (info0 : LogInfo) (fmt : List Char) (args : List CArg),
      fmt.take 14 ≠ magicChars → parseHeader info0 fmt args = ⟨info0, fmt, args⟩) ∧
    (∀ (tm : TmInfo) (ns : Nat) (pOk : Bool) (mem : List Char) (s : ScanSt),
      s.info.fileName = none → s.info.funcName = none → s.info.fileLine = 0 →
      s.emits = [] →
      ∀ e ∈ (scanLoop tm ns pOk mem s).state.emits,
        "FileName" ∉ recordKeys e.2 ∧ "FuncName" ∉ recordKeys e.2 ∧
          "FileLine" ∉ recordKeys e.2) ∧
    (∀ (info : LogInfo) (msg : Option String),
      "FileLine" ∈ recordKeys (pushedRecord info msg) ↔ info.fileLine ≠ 0) := by
  refine ⟨?_, ?_, ?_, fileLine_key_iff⟩
  · intro info0 rest args
    unfold parseHeader
    rw [if_pos ?_]
    · rw [List.drop_append_of_le_length (by decide)]
      rfl
    · rw [List.take_append_of_le_length (by decide)]
      rfl
  · intro info0 fmt args h
    unfold parseHeader
    rw [if_neg h]
  · intro tm ns pOk mem s h1 h2 h3 he e hmem
    rcases (scanLoop_info_emits tm ns pOk mem s).2 e hmem with h | ⟨p, m, hm⟩
    · rw [he] at h
      exact absurd h (List.not_mem_nil e)
    · rw [hm]
      exact no_meta_keys s.info (some m) h1 h2 h3

/-- Witness for C6: a concrete header-bearing call binds file a.c, function
fn and line 7; a headerless template is left untouched; a record built
without metadata carries no FileName key; a record with line 7 carries
FileLine. -/
theorem c6_header_binding_witness :
    parseHeader ⟨['t'], 4, none, none, 0⟩ (magicChars ++ ['m'])
        [CArg.str "a.c", CArg.str "fn", CArg.int 7] =
      ⟨⟨['t'], 4, some "a.c", some "fn", 7⟩, ['m'], []⟩ ∧
    parseHeader ⟨['t'], 4, none, none, 0⟩ ['m'] [CArg.str "a.c"] =
      ⟨⟨['t'], 4, none, none, 0⟩, ['m'], [CArg.str "a.c"]⟩ ∧
    "FileName" ∉ recordKeys (pushedRecord ⟨['t'], 4, none, none, 0⟩ (some "m")) ∧
    ("FileLine" ∈ recordKeys (pushedRecord ⟨['t'], 4, some "a.c", some "fn", 7⟩
      (some "m"))) :=
  ⟨c6_header_binding.1 ⟨['t'], 4, none, none, 0⟩ ['m']
      [CArg.str "a.c", CArg.str "fn", CArg.int 7],
   c6_header_binding.2.1 ⟨['t'], 4, none, none, 0⟩ ['m'] [CArg.str "a.c"]
      (by decide),
   (c6_header_binding.2.2.1 tmA 0 true (['m'] ++ [nulChar])
      ⟨activeState, [], [], [], ⟨['t'], 4, none, none, 0⟩, []⟩ rfl rfl rfl rfl
      ([], pushedRecord ⟨['t'], 4, none, none, 0⟩ (some "m")) (by decide)).1,
   (c6_header_binding.2.2.2 ⟨['t'], 4, some "a.c", some "fn", 7⟩ (some "m")).mpr
      (by decide)⟩

/-- Iterated registry steps of successive rotations (one new rotated path
per call). -/
def regSteps (q : Queue) : List String → Queue
  | [] => q
  | p :: ps => regSteps (rotateRegistry q p).1 ps

/-- The evictions produced along iterated registry steps. -/
def regEvictions (q : Queue) : List String → List (Option String)
  | [] => []
  | p :: ps => (rotateRegistry q p).2 :: regEvictions (rotateRegistry q p).1 ps

/-- A deleted file is gone from the disk map. -/
theorem diskGet_remove (d : Disk) (p : String) : diskGet (diskRemove d p) p = none := by
  unfold diskGet diskRemove
  induction d with
  | nil => simp
  | cons e rest ih =>
    by_cases he : e.1 = p
    · simpa [List.filter_cons, he] using ih
    · simpa [List.filter_cons, he] using ih

/-- Removing the entries of another key does not change a lookup. -/
theorem find_key_filter (d : Disk) (p x : String) (h : x ≠ p) :
    List.find? (fun e => decide (e.1 = x)) (d.filter fun e => e.1 ≠ p) =
      List.find? (fun e => decide (e.1 = x)) d := by
  induction d with
  | nil => rfl
  | cons e rest ih =>
    by_cases he : e.1 = p
    · have hex : ¬(decide (e.1 = x) = true) := by
        simp only [decide_eq_true_eq]
        rw [he]
        exact fun hc => h hc.symm
      rw [List.filter_cons_of_neg (by simpa using he),
        List.find?_cons_of_neg rest hex, ih]
    · rw [List.filter_cons_of_pos (by simpa using he)]
      cases hb : decide (e.1 = x) with
      | false =>
        simp only [List.find?_cons, hb]
        exact ih
      | true => simp only [List.find?_cons, hb]

/-- Writing one path leaves the others untouched. -/
theorem diskGet_write_ne (d : Disk) (p : String) (c : Option JTree) (x : String)
    (h : x ≠ p) : diskGet (diskWrite d p c) x = diskGet d x := by
  unfold diskGet diskWrite
  rw [List.find?_append, find_key_filter d p x h]
  have hsingle : List.find? (fun e => decide (e.1 = x)) [(p, c)] = none := by
    rw [List.find?_cons_of_neg [] (by simpa using fun hc : p = x => h hc.symm)]
    rfl
  rw [hsingle]
  cases List.find? (fun e => decide (e.1 = x)) d with
  | none => rfl
  | some v => rfl

/-- The registry never grows past its five slots. -/
theorem rotateRegistry_size_le (q : Queue) (p : String) (h : q.currentSize ≤ 5) :
    (rotateRegistry q p).1.currentSize ≤ 5 := by
  unfold rotateRegistry
  by_cases hs : q.currentSize < 5
  · rw [if_pos hs]
    show q.currentSize + 1 ≤ 5
    omega
  · rw [if_neg hs]
    show q.currentSize - 1 ≤ 5
    omega

/-- A registry step below capacity pushes the new path: size grows by one. -/
theorem rotateRegistry_size_lt (q : Queue) (p : String) (h : q.currentSize < 5) :
    (rotateRegistry q p).1.currentSize = q.currentSize + 1 ∧
      (rotateRegistry q p).2 = none := by
  unfold rotateRegistry
  rw [if_pos h]
  exact ⟨rfl, rfl⟩

/-- A registry step at capacity evicts the head entry and shrinks to four;
the new path is not stored. -/
theorem rotateRegistry_size_full (q : Queue) (p : String) (h : q.currentSize = 5) :
    (rotateRegistry q p).1.currentSize = 4 ∧
      (rotateRegistry q p).2 = q.rotatedFiles.getD q.head none := by
  unfold rotateRegistry
  rw [if_neg (by omega)]
  exact ⟨show q.currentSize - 1 = 4 by omega, rfl⟩

/-- An evicted path was stored in the registry. -/
theorem rotateRegistry_evicted_mem (q : Queue) (p x : String)
    (h : (rotateRegistry q p).2 = some x) : some x ∈ q.rotatedFiles := by
  unfold rotateRegistry at h
  by_cases hs : q.currentSize < 5
  · rw [if_pos hs] at h
    exact absurd h (by simp)
  · rw [if_neg hs] at h
    simp only at h
    rw [List.getD_eq_getElem?_getD] at h
    cases hq : q.rotatedFiles[q.head]? with
    | none => rw [hq] at h; exact absurd h (by simp)
    | some v =>
      rw [hq] at h
      simp only [Option.getD_some] at h
      subst h
      exact List.getElem?_mem hq

/-- A path absent from the registry stays absent across a step with a
different new path, and is never the evicted one. -/
theorem rotateRegistry_preserves_absent (q : Queue) (p x : String)
    (hx : some x ∉ q.rotatedFiles) (hne : x ≠ p) :
    some x ∉ (rotateRegistry q p).1.rotatedFiles ∧
      (rotateRegistry q p).2 ≠ some x := by
  refine ⟨?_, fun hev => hx (rotateRegistry_evicted_mem q p x hev)⟩
  unfold rotateRegistry
  by_cases hs : q.currentSize < 5
  · rw [if_pos hs]
    intro hmem
    rcases List.mem_or_eq_of_mem_set hmem with h | h
    · exact hx h
    · exact hne (by simpa using h)
  · rw [if_neg hs]
    intro hmem
    rcases List.mem_or_eq_of_mem_set hmem with h | h
    · exact hx h
    · simp at h

/-- A fresh path that was never handed to the registry is never stored and
never evicted across any number of rotations. -/
theorem regSteps_never_evicts (x : String) :
    ∀ (ps : List String) (q : Queue), some x ∉ q.rotatedFiles → x ∉ ps →
      some x ∉ (regSteps q ps).rotatedFiles ∧
        some x ∉ regEvictions q ps := by
  intro ps
  induction ps with
  | nil =>
    intro q hq hps
    exact ⟨hq, by simp [regEvictions]⟩
  | cons p rest ih =>
    intro q hq hps
    have hne : x ≠ p := fun h => hps (by rw [h]; exact List.mem_cons_self p rest)
    obtain ⟨h1, h2⟩ := rotateRegistry_preserves_absent q p x hq hne
    obtain ⟨h3, h4⟩ := ih (rotateRegistry q p).1 h1
      (fun h => hps (List.mem_cons_of_mem p h))
    refine ⟨h3, ?_⟩
    intro hmem
    rcases List.mem_cons.mp hmem with h | h
    · exact h2 h.symm
    · exact h4 h

/-- From a full registry the size alternates for ever: four after an odd
number of further rotations, five after an even number. -/
theorem regSteps_size_alternates :
    ∀ (ps : List String) (q : Queue),
      (q.currentSize = 5 →
        (regSteps q ps).currentSize = if ps.length % 2 = 0 then 5 else 4) ∧
      (q.currentSize = 4 →
        (regSteps q ps).currentSize = if ps.length % 2 = 0 then 4 else 5) := by
  intro ps
  induction ps with
  | nil => exact fun q => ⟨fun h => by simpa [regSteps] using h,
      fun h => by simpa [regSteps] using h⟩
  | cons p rest ih =>
    intro q
    constructor
    · intro h5
      have hstep : (rotateRegistry q p).1.currentSize = 4 :=
        (rotateRegistry_size_full q p h5).1
      have := ((ih (rotateRegistry q p).1).2) hstep
      unfold regSteps
      rw [this]
      rcases Nat.even_or_odd rest.length with he | ho
      · have h1 : rest.length % 2 = 0 := Nat.even_iff.mp he
        have h2 : (p :: rest).length % 2 = 1 := by
          simp only [List.length_cons]
          omega
        rw [if_pos h1, if_neg (by omega)]
      · have h1 : rest.length % 2 = 1 := Nat.odd_iff.mp ho
        have h2 : (p :: rest).length % 2 = 0 := by
          simp only [List.length_cons]
          omega
        rw [if_neg (by omega), if_pos h2]
    · intro h4
      have hstep : (rotateRegistry q p).1.currentSize = 5 := by
        have := rotateRegistry_size_lt q p (by omega)
        omega
      have := ((ih (rotateRegistry q p).1).1) hstep
      unfold regSteps
      rw [this]
      rcases Nat.even_or_odd rest.length with he | ho
      · have h1 : rest.length % 2 = 0 := Nat.even_iff.mp he
        rw [if_pos h1, if_neg (by simp only [List.length_cons]; omega)]
      · have h1 : rest.length % 2 = 1 := Nat.odd_iff.mp ho
        rw [if_neg (by omega), if_pos (by simp only [List.length_cons]; omega)]

/-- The registry size bound is preserved by any number of rotations. -/
theorem regSteps_size_le :
    ∀ (ps : List String) (q : Queue), q.currentSize ≤ 5 →
      (regSteps q ps).currentSize ≤ 5 := by
  intro ps
  induction ps with
  | nil => exact fun q h => h
  | cons p rest ih =>
    intro q h
    exact ih (rotateRegistry q p).1 (rotateRegistry_size_le q p h)

/-- C9: a rotation hitting a full registry deletes the oldest entry from
disk and shrinks the registry to four entries, but does not insert its own
rotated path; a path never handed to the registry is never stored and never
evicted by any later rotation; and from a full registry the size alternates
between four and five for ever, never exceeding five. -/
theorem c9_registry_eviction :
    (∀ (st : GState) (q : Queue) (fp : String) (tm : TmInfo) (ns : Nat)
        (pOk : Bool) (x : String),
      st.filePath = some fp → st.queue = some q → q.currentSize = 5 →
      (rotateTotal st tm ns pOk).queue =
          some (rotateRegistry q (rotatedPathOf tm ns fp)).1 ∧
        (rotateRegistry q (rotatedPathOf tm ns fp)).1.currentSize = 4 ∧
        ((rotateRegistry q (rotatedPathOf tm ns fp)).2 = some x →
          x ≠ rotatedPathOf tm ns fp →
          diskGet (rotateTotal st tm ns pOk).disk x = none) ∧
        (some (rotatedPathOf tm ns fp) ∉ q.rotatedFiles →
          some (rotatedPathOf tm ns fp) ∉
            (rotateRegistry q (rotatedPathOf tm ns fp)).1.rotatedFiles)) ∧
    (∀ (x : String) (ps : List String) (q : Queue),
      some x ∉ q.rotatedFiles → x ∉ ps →
      some x ∉ (regSteps q ps).rotatedFiles ∧ some x ∉ regEvictions q ps) ∧
    (∀ (ps : List String) (q : Queue), q.currentSize = 5 →
      (regSteps q ps).currentSize = if ps.length % 2 = 0 then 5 else 4) ∧
    (∀ (ps : List String) (q : Queue), q.currentSize ≤ 5 →
      (regSteps q ps).currentSize ≤ 5) := by
  refine ⟨?_, regSteps_never_evicts, fun ps q h => (regSteps_size_alternates ps q).1 h,
    regSteps_size_le⟩
  intro st q fp tm ns pOk x hf hq h5
  have hsize4 : (rotateRegistry q (rotatedPathOf tm ns fp)).1.currentSize = 4 :=
    (rotateRegistry_size_full q (rotatedPathOf tm ns fp) h5).1
  have hnoins : some (rotatedPathOf tm ns fp) ∉ q.rotatedFiles →
      some (rotatedPathOf tm ns fp) ∉
        (rotateRegistry q (rotatedPathOf tm ns fp)).1.rotatedFiles := by
    intro habs
    unfold rotateRegistry
    rw [if_neg (by omega)]
    intro hmem
    rcases List.mem_or_eq_of_mem_set hmem with h | h
    · exact habs h
    · simp at h
  unfold rotateTotal cJSONLoggerRotate
  rw [hf, hq]
  simp only [Option.getD_some]
  cases hroot : st.rootNode with
  | none =>
    refine ⟨rfl, hsize4, ?_, hnoins⟩
    intro hev hxrp
    show diskGet (diskWrite
      (match (rotateRegistry q (rotatedPathOf tm ns fp)).2 with
        | some e => diskRemove st.disk e
        | none => st.disk) (rotatedPathOf tm ns fp) none) x = none
    rw [hev, diskGet_write_ne _ _ _ _ hxrp, diskGet_remove]
  | some r =>
    cases pOk with
    | true =>
      refine ⟨rfl, hsize4, ?_, hnoins⟩
      intro hev hxrp
      show diskGet (diskWrite (diskWrite
        (match (rotateRegistry q (rotatedPathOf tm ns fp)).2 with
          | some e => diskRemove st.disk e
          | none => st.disk) (rotatedPathOf tm ns fp) none)
        (rotatedPathOf tm ns fp) (some r)) x = none
      rw [hev, diskGet_write_ne _ _ _ _ hxrp, diskGet_write_ne _ _ _ _ hxrp,
        diskGet_remove]
    | false =>
      refine ⟨rfl, hsize4, ?_, hnoins⟩
      intro hev hxrp
      show diskGet (diskWrite
        (match (rotateRegistry q (rotatedPathOf tm ns fp)).2 with
          | some e => diskRemove st.disk e
          | none => st.disk) (rotatedPathOf tm ns fp) none) x = none
      rw [hev, diskGet_write_ne _ _ _ _ hxrp, diskGet_remove]

/-- A registry already holding five rotated files a..e. -/
def q5 : Queue := ⟨[some "a", some "b", some "c", some "d", some "e"], 0, 0, 5⟩

/-- An active logger with the full registry and file a on disk. -/
def c9State : GState := { activeState with queue := some q5, disk := [("a", none)] }

/-- Witness for C9: rotating with the full registry evicts and deletes file
a, shrinks the registry to four, and never stores the new rotated path; a
fresh path stays out of the registry across two more rotations; sizes
alternate. -/
theorem c9_registry_eviction_witness :
    diskGet (rotateTotal c9State tmA 0 true).disk "a" = none ∧
    (rotateRegistry q5 (rotatedPathOf tmA 0 "log.json")).1.currentSize = 4 ∧
    some "z" ∉ (regSteps q5 ["p1", "p2"]).rotatedFiles ∧
    (regSteps q5 ["p1"]).currentSize = (if ([ "p1" ] : List String).length % 2 = 0 then 5 else 4) ∧
    (regSteps q5 ["p1", "p2", "p3"]).currentSize ≤ 5 :=
  ⟨(c9_registry_eviction.1 c9State q5 "log.json" tmA 0 true "a" rfl rfl rfl).2.2.1
      rfl (by decide),
   (c9_registry_eviction.1 c9State q5 "log.json" tmA 0 true "a" rfl rfl rfl).2.1,
   (c9_registry_eviction.2.1 "z" ["p1", "p2"] q5 (by decide) (by decide)).1,
   c9_registry_eviction.2.2.1 ["p1"] q5 rfl,
   c9_registry_eviction.2.2.2 ["p1", "p2", "p3"] q5 (by decide)⟩

/-- Unfolding equation for endsUnpairedPct on a first byte. -/
theorem endsUnpairedPct_cons (c : Char) (rest : List Char) :
    endsUnpairedPct (c :: rest) =
      if c = pctChar then
        match rest with
        | [] => true
        | _ :: rest2 => endsUnpairedPct rest2
      else endsUnpairedPct rest := by
  cases rest with
  | nil => rfl
  | cons d rest2 => rfl

/-- Bounded-length form: a scan of a template with no trailing unpaired
percent stops at the NUL terminator, whatever bytes lie beyond it. -/
theorem scanLoop_stops_at_nul_aux (tm : TmInfo) (ns : Nat) (pOk : Bool) :
    ∀ (n : Nat) (ts : List Char), ts.length ≤ n → nulChar ∉ ts →
      endsUnpairedPct ts = false → ∀ (junk : List Char) (s : ScanSt),
      scanLoop tm ns pOk (ts ++ nulChar :: junk) s =
        scanLoop tm ns pOk (ts ++ [nulChar]) s := by
  intro n
  induction n with
  | zero =>
    intro ts hlen hmem hend junk s
    have hts : ts = [] := List.eq_nil_of_length_eq_zero (by omega)
    subst hts
    rw [List.nil_append, List.nil_append, scanLoop_nul_head, scanLoop_nul_head]
  | succ k ih =>
    intro ts hlen hmem hend junk s
    match ts with
    | [] => rw [List.nil_append, List.nil_append, scanLoop_nul_head, scanLoop_nul_head]
    | c :: rest =>
      have hcn : ¬c = nulChar := fun h =>
        hmem (h ▸ List.mem_cons_self c rest)
      by_cases hp : c = pctChar
      · subst hp
        match rest with
        | [] =>
          rw [endsUnpairedPct_cons, if_pos rfl] at hend
          exact absurd hend (by simp)
        | d :: rest2 =>
          have hend2 : endsUnpairedPct rest2 = false := by
            rw [endsUnpairedPct_cons, if_pos rfl] at hend
            exact hend
          have hmem2 : nulChar ∉ rest2 := fun h =>
            hmem (List.mem_cons_of_mem _ (List.mem_cons_of_mem _ h))
          have hlen2 : rest2.length ≤ k := by
            simp only [List.length_cons] at hlen
            omega
          show scanLoop tm ns pOk (pctChar :: d :: (rest2 ++ nulChar :: junk)) s =
            scanLoop tm ns pOk (pctChar :: d :: (rest2 ++ [nulChar])) s
          rw [scanLoop_pct_cons, scanLoop_pct_cons]
          by_cases hd : d = jnoChar
          · rw [if_pos hd, if_pos hd]
            exact ih rest2 hlen2 hmem2 hend2 junk (flushDescend tm ns pOk s)
          · rw [if_neg hd, if_neg hd]
            exact ih rest2 hlen2 hmem2 hend2 junk
              { s with buf := s.buf ++ [pctChar, d] }
      · have hend1 : endsUnpairedPct rest = false := by
          rw [endsUnpairedPct_cons, if_neg hp] at hend
          exact hend
        have hmem1 : nulChar ∉ rest := fun h => hmem (List.mem_cons_of_mem _ h)
        have hlen1 : rest.length ≤ k := by
          simp only [List.length_cons] at hlen
          omega
        show scanLoop tm ns pOk (c :: (rest ++ nulChar :: junk)) s =
          scanLoop tm ns pOk (c :: (rest ++ [nulChar])) s
        rw [scanLoop_lit tm ns pOk c _ s hcn hp, scanLoop_lit tm ns pOk c _ s hcn hp]
        exact ih rest hlen1 hmem1 hend1 junk { s with buf := s.buf ++ [c] }

/-- Bounded-length form: a scan of a template with no trailing unpaired
percent exits through the NUL terminator (it never runs out of memory). -/
theorem scanLoop_done_aux (tm : TmInfo) (ns : Nat) (pOk : Bool) :
    ∀ (n : Nat) (ts : List Char), ts.length ≤ n → nulChar ∉ ts →
      endsUnpairedPct ts = false → ∀ s : ScanSt,
      (scanLoop tm ns pOk (ts ++ [nulChar]) s).isDone = true := by
  intro n
  induction n with
  | zero =>
    intro ts hlen hmem hend s
    have hts : ts = [] := List.eq_nil_of_length_eq_zero (by omega)
    subst hts
    rw [List.nil_append, scanLoop_nul_head]
    rfl
  | succ k ih =>
    intro ts hlen hmem hend s
    match ts with
    | [] =>
      rw [List.nil_append, scanLoop_nul_head]
      rfl
    | c :: rest =>
      have hcn : ¬c = nulChar := fun h =>
        hmem (h ▸ List.mem_cons_self c rest)
      by_cases hp : c = pctChar
      · subst hp
        match rest with
        | [] =>
          rw [endsUnpairedPct_cons, if_pos rfl] at hend
          exact absurd hend (by simp)
        | d :: rest2 =>
          have hend2 : endsUnpairedPct rest2 = false := by
            rw [endsUnpairedPct_cons, if_pos rfl] at hend
            exact hend
          have hmem2 : nulChar ∉ rest2 := fun h =>
            hmem (List.mem_cons_of_mem _ (List.mem_cons_of_mem _ h))
          have hlen2 : rest2.length ≤ k := by
            simp only [List.length_cons] at hlen
            omega
          show (scanLoop tm ns pOk (pctChar :: d :: (rest2 ++ [nulChar])) s).isDone = true
          rw [scanLoop_pct_cons]
          by_cases hd : d = jnoChar
          · rw [if_pos hd]
            exact ih rest2 hlen2 hmem2 hend2 (flushDescend tm ns pOk s)
          · rw [if_neg hd]
            exact ih rest2 hlen2 hmem2 hend2 { s with buf := s.buf ++ [pctChar, d] }
      · have hend1 : endsUnpairedPct rest = false := by
          rw [endsUnpairedPct_cons, if_neg hp] at hend
          exact hend
        have hmem1 : nulChar ∉ rest := fun h => hmem (List.mem_cons_of_mem _ h)
        have hlen1 : rest.length ≤ k := by
          simp only [List.length_cons] at hlen
          omega
        show (scanLoop tm ns pOk (c :: (rest ++ [nulChar])) s).isDone = true
        rw [scanLoop_lit tm ns pOk c _ s hcn hp]
        exact ih rest hlen1 hmem1 hend1 { s with buf := s.buf ++ [c] }

/-- C10: for every template that does not end in an unpaired percent the
scan terminates at the NUL terminator and the bytes beyond it are never
read (the result does not depend on them, and the scan reports done); but a
template whose final byte is an unpaired percent makes the scan consume the
percent and the NUL as a two-byte escape (both land in the fragment buffer)
and continue past the terminator: with no further readable memory the scan
runs out of bounds, and bytes placed after the terminator change the
outcome. -/
theorem c10_trailing_pct_oob :
    (∀ (ts : List Char) (tm : TmInfo) (ns : Nat) (pOk : Bool)
        (junk : List Char) (s : ScanSt),
      nulChar ∉ ts → endsUnpairedPct ts = false →
      scanLoop tm ns pOk (ts ++ nulChar :: junk) s =
        scanLoop tm ns pOk (ts ++ [nulChar]) s ∧
      (scanLoop tm ns pOk (ts ++ [nulChar]) s).isDone = true) ∧
    endsUnpairedPct ['a', pctChar] = true ∧
    (scanLoop tmA 0 true (['a', pctChar] ++ [nulChar])
      ⟨activeState, [], [], [], ⟨['t'], 4, none, none, 0⟩, []⟩).isDone = false ∧
    (scanLoop tmA 0 true (['a', pctChar] ++ [nulChar])
      ⟨activeState, [], [], [], ⟨['t'], 4, none, none, 0⟩, []⟩).state.buf =
      ['a', pctChar, nulChar] ∧
    (scanLoop tmA 0 true (['a', pctChar] ++ nulChar :: ['x', nulChar])
      ⟨activeState, [], [], [], ⟨['t'], 4, none, none, 0⟩, []⟩).isDone = true := by
  refine ⟨?_, by decide, by decide, by decide, by decide⟩
  intro ts tm ns pOk junk s hmem hend
  exact ⟨scanLoop_stops_at_nul_aux tm ns pOk ts.length ts le_rfl hmem hend junk s,
    scanLoop_done_aux tm ns pOk ts.length ts le_rfl hmem hend s⟩

/-- Witness for C10: scanning template ab with garbage x after the NUL gives
the same outcome as with nothing after the NUL. -/
theorem c10_trailing_pct_oob_witness :
    scanLoop tmA 0 true (['a', 'b'] ++ nulChar :: ['x'])
        ⟨activeState, [], [], [], ⟨['t'], 4, none, none, 0⟩, []⟩ =
      scanLoop tmA 0 true (['a', 'b'] ++ [nulChar])
        ⟨activeState, [], [], [], ⟨['t'], 4, none, none, 0⟩, []⟩ :=
  (c10_trailing_pct_oob.1 ['a', 'b'] tmA 0 true ['x']
    ⟨activeState, [], [], [], ⟨['t'], 4, none, none, 0⟩, []⟩
    (by decide) (by decide)).1

/-- The remaining variadic arguments after a possible flush: a flush formats
the fragment and consumes its conversion arguments. -/
def postFlushArgs (s : ScanSt) : List CArg :=
  if effBuf s.buf = [] then s.args else (renderFmt (effBuf s.buf) s.args).2

/-- The node name a descent consumes: the next variadic argument after the
possible flush. -/
def nextName (s : ScanSt) : String := (takeStrArg (postFlushArgs s)).1

/-- A buffer without NUL bytes is its own strlen prefix. -/
theorem effBuf_no_nul {l : List Char} (h : nulChar ∉ l) : effBuf l = l := by
  unfold effBuf
  rw [List.takeWhile_eq_self_iff.mpr]
  intro x hx
  simp only [ne_eq, decide_eq_true_eq]
  exact fun hc => h (hc ▸ hx)

/-- Bounded-length form: a directive-free template is scanned by appending
all its bytes to the fragment buffer and ending in the terminal flush. -/
theorem scanLoop_no_dir_aux (tm : TmInfo) (ns : Nat) (pOk : Bool) :
    ∀ (n : Nat) (ts : List Char), ts.length ≤ n → nulChar ∉ ts →
      hasDirective ts = false → endsUnpairedPct ts = false → ∀ s : ScanSt,
      scanLoop tm ns pOk (ts ++ [nulChar]) s =
        ScanResult.done (finalFlush tm ns pOk { s with buf := s.buf ++ ts }) := by
  intro n
  induction n with
  | zero =>
    intro ts hlen hmem hdir hend s
    have hts : ts = [] := List.eq_nil_of_length_eq_zero (by omega)
    subst hts
    rw [List.nil_append, scanLoop_nul_head]
    simp only [List.append_nil]
  | succ k ih =>
    intro ts hlen hmem hdir hend s
    match ts with
    | [] =>
      rw [List.nil_append, scanLoop_nul_head]
      simp only [List.append_nil]
    | c :: rest =>
      have hcn : ¬c = nulChar := fun h =>
        hmem (h ▸ List.mem_cons_self c rest)
      by_cases hp : c = pctChar
      · subst hp
        match rest with
        | [] =>
          rw [endsUnpairedPct_cons, if_pos rfl] at hend
          exact absurd hend (by simp)
        | d :: rest2 =>
          have hdir0 : hasDirective (pctChar :: d :: rest2) =
              (if d = jnoChar then true else hasDirective rest2) := by rfl
          have hd : ¬d = jnoChar := by
            intro hd1
            rw [hdir0, if_pos hd1] at hdir
            exact absurd hdir (by simp)
          have hdir2 : hasDirective rest2 = false := by
            rw [hdir0, if_neg hd] at hdir
            exact hdir
          have hend2 : endsUnpairedPct rest2 = false := by
            rw [endsUnpairedPct_cons, if_pos rfl] at hend
            exact hend
          have hmem2 : nulChar ∉ rest2 := fun h =>
            hmem (List.mem_cons_of_mem _ (List.mem_cons_of_mem _ h))
          have hlen2 : rest2.length ≤ k := by
            simp only [List.length_cons] at hlen
            omega
          show scanLoop tm ns pOk (pctChar :: d :: (rest2 ++ [nulChar])) s = _
          rw [scanLoop_pct_cons, if_neg hd,
            ih rest2 hlen2 hmem2 hdir2 hend2 { s with buf := s.buf ++ [pctChar, d] }]
          have hassoc : (s.buf ++ [pctChar, d]) ++ rest2 =
              s.buf ++ (pctChar :: d :: rest2) := by
            rw [List.append_assoc]
            rfl
          rw [hassoc]
      · have hdir1 : hasDirective rest = false := by
          have : hasDirective (c :: rest) = hasDirective rest := by
            cases rest with
            | nil => simp [hasDirective, hp]
            | cons d r2 => simp [hasDirective, hp]
          rw [this] at hdir
          exact hdir
        have hend1 : endsUnpairedPct rest = false := by
          rw [endsUnpairedPct_cons, if_neg hp] at hend
          exact hend
        have hmem1 : nulChar ∉ rest := fun h => hmem (List.mem_cons_of_mem _ h)
        have hlen1 : rest.length ≤ k := by
          simp only [List.length_cons] at hlen
          omega
        show scanLoop tm ns pOk (c :: (rest ++ [nulChar])) s = _
        rw [scanLoop_lit tm ns pOk c _ s hcn hp,
          ih rest hlen1 hmem1 hdir1 hend1 { s with buf := s.buf ++ [c] }]
        have hassoc : (s.buf ++ [c]) ++ rest = s.buf ++ (c :: rest) := by
          rw [List.append_assoc]
          rfl
        rw [hassoc]

/-- Iterated flush-and-descend steps. -/
def descendN (tm : TmInfo) (ns : Nat) (pOk : Bool) : Nat → ScanSt → ScanSt
  | 0, s => s
  | n + 1, s => descendN tm ns pOk n (flushDescend tm ns pOk s)

/-- With an empty fragment buffer, a descent emits nothing, keeps the empty
buffer, consumes the next argument as a node name, extends the current path
with it and reuses-or-creates that child. -/
theorem flushDescend_empty_buf (tm : TmInfo) (ns : Nat) (pOk : Bool)
    (s : ScanSt) (h : s.buf = []) :
    (flushDescend tm ns pOk s).emits = s.emits ∧
    (flushDescend tm ns pOk s).buf = [] ∧
    (flushDescend tm ns pOk s).path = s.path ++ [(takeStrArg s.args).1] ∧
    (flushDescend tm ns pOk s).args = (takeStrArg s.args).2 ∧
    (flushDescend tm ns pOk s).st.rootNode =
      s.st.rootNode.map fun r => createJsonObjectAt r s.path (takeStrArg s.args).1 := by
  have hb : effBuf s.buf = [] := by rw [h]; rfl
  unfold flushDescend
  rw [if_pos hb]
  exact ⟨rfl, by rw [h], rfl, rfl, rfl⟩

/-- With a non-empty fragment buffer, a descent first emits the fragment as
a record at the current node and clears the buffer, then consumes the next
remaining argument as a node name and descends. -/
theorem flushDescend_nonempty_buf (tm : TmInfo) (ns : Nat) (pOk : Bool)
    (s : ScanSt) (h : effBuf s.buf ≠ []) :
    (flushDescend tm ns pOk s).emits = s.emits ++
      [(s.path, pushedRecord s.info
        (some (String.mk (renderFmt (effBuf s.buf) s.args).1)))] ∧
    (flushDescend tm ns pOk s).buf = [] ∧
    (flushDescend tm ns pOk s).path = s.path ++ [nextName s] ∧
    (flushDescend tm ns pOk s).args = (takeStrArg (postFlushArgs s)).2 := by
  have hp : postFlushArgs s = (renderFmt (effBuf s.buf) s.args).2 := by
    unfold postFlushArgs
    rw [if_neg h]
  unfold flushDescend
  rw [if_neg h]
  refine ⟨rfl, rfl, ?_, ?_⟩
  · show (emitStep tm ns pOk s).path ++ [(takeStrArg (emitStep tm ns pOk s).args).1] =
      s.path ++ [nextName s]
    unfold nextName
    rw [hp]
    rfl
  · show (takeStrArg (emitStep tm ns pOk s).args).2 = (takeStrArg (postFlushArgs s)).2
    rw [hp]
    rfl

/-- The terminal flush emits a record at the current node iff the fragment
buffer is non-empty. -/
theorem finalFlush_emits_iff (tm : TmInfo) (ns : Nat) (pOk : Bool) (s : ScanSt) :
    (finalFlush tm ns pOk s).emits =
      (if effBuf s.buf = [] then s.emits
       else s.emits ++ [(s.path, pushedRecord s.info
         (some (String.mk (renderFmt (effBuf s.buf) s.args).1)))]) := by
  unfold finalFlush
  by_cases h : effBuf s.buf = []
  · rw [if_pos h, if_pos h]
  · rw [if_neg h, if_neg h]
    rfl

/-- A chain of consecutive directives descends one level per directive and
emits nothing when the buffer starts empty. -/
theorem dirChars_descend (tm : TmInfo) (ns : Nat) (pOk : Bool) :
    ∀ (n : Nat) (mem : List Char) (s : ScanSt),
      scanLoop tm ns pOk (dirChars n ++ mem) s =
        scanLoop tm ns pOk mem (descendN tm ns pOk n s) := by
  intro n
  induction n with
  | zero => intro mem s; rfl
  | succ k ih =>
    intro mem s
    show scanLoop tm ns pOk (pctChar :: jnoChar :: (dirChars k ++ mem)) s = _
    rw [scanLoop_pct_cons, if_pos rfl, ih mem (flushDescend tm ns pOk s)]
    rfl

/-- Iterated empty-buffer descents keep the buffer empty and emit nothing. -/
theorem descendN_empty_buf (tm : TmInfo) (ns : Nat) (pOk : Bool) :
    ∀ (n : Nat) (s : ScanSt), s.buf = [] →
      (descendN tm ns pOk n s).emits = s.emits ∧
      (descendN tm ns pOk n s).buf = [] := by
  intro n
  induction n with
  | zero => exact fun s h => ⟨rfl, h⟩
  | succ k ih =>
    intro s h
    obtain ⟨h1, h2, _, _⟩ := flushDescend_empty_buf tm ns pOk s h
    obtain ⟨h3, h4⟩ := ih (flushDescend tm ns pOk s) h2
    exact ⟨by rw [descendN, h3, h1], by rw [descendN, h4]⟩

/-- C5 counterexample: the empty template is directive-free, yet the call
emits no record at all and leaves the logger untouched, against the claimed
"a directive-free template emits exactly one record at the root". -/
theorem c5_empty_template_cex :
    hasDirective [] = false ∧
    cJSONLoggerLog activeState 4 [] [] tmA 0 true = activeState ∧
    rootRecords (cJSONLoggerLog activeState 4 [] [] tmA 0 true) = 0 :=
  ⟨rfl, rfl, rfl⟩

/-- C5 amended: the parser follows the flush semantics exactly — at each
node-descent directive a record formatted from the fragment buffer is
emitted at the current node iff the buffer is non-empty (the buffer is then
cleared), after which the next variadic argument is consumed as a node name
and the parser descends, reusing an existing child of that name or else
appending a new one in insertion order; at end of template a terminal
record is emitted iff the buffer is non-empty.  Consequently a NONEMPTY
directive-free template emits exactly one record at the current node (the
empty template emits none), a template beginning with a directive emits
nothing before descending, and consecutive directives descend several
levels emitting nothing in between. -/
theorem c5_flush_semantics :
    (∀ (tm : TmInfo) (ns : Nat) (pOk : Bool) (mem : List Char) (s : ScanSt),
      scanLoop tm ns pOk (pctChar :: jnoChar :: mem) s =
        scanLoop tm ns pOk mem (flushDescend tm ns pOk s)) ∧
    (∀ (tm : TmInfo) (ns : Nat) (pOk : Bool) (s : ScanSt), s.buf = [] →
      (flushDescend tm ns pOk s).emits = s.emits ∧
      (flushDescend tm ns pOk s).buf = [] ∧
      (flushDescend tm ns pOk s).path = s.path ++ [(takeStrArg s.args).1] ∧
      (flushDescend tm ns pOk s).args = (takeStrArg s.args).2 ∧
      (flushDescend tm ns pOk s).st.rootNode =
        s.st.rootNode.map fun r =>
          createJsonObjectAt r s.path (takeStrArg s.args).1) ∧
    (∀ (tm : TmInfo) (ns : Nat) (pOk : Bool) (s : ScanSt), effBuf s.buf ≠ [] →
      (flushDescend tm ns pOk s).emits = s.emits ++
        [(s.path, pushedRecord s.info
          (some (String.mk (renderFmt (effBuf s.buf) s.args).1)))] ∧
      (flushDescend tm ns pOk s).buf = [] ∧
      (flushDescend tm ns pOk s).path = s.path ++ [nextName s]) ∧
    (∀ (tm : TmInfo) (ns : Nat) (pOk : Bool) (junk : List Char) (s : ScanSt),
      scanLoop tm ns pOk (nulChar :: junk) s =
        ScanResult.done (finalFlush tm ns pOk s) ∧
      (finalFlush tm ns pOk s).emits =
        (if effBuf s.buf = [] then s.emits
         else s.emits ++ [(s.path, pushedRecord s.info
           (some (String.mk (renderFmt (effBuf s.buf) s.args).1)))])) ∧
    (∀ (logs : List (List (String × JVal))) (ch : JForest) (name : String),
      createJsonObjectAt (JTree.node logs ch) [] name =
        (if forestHas ch name then JTree.node logs ch
         else JTree.node logs (forestAppendChild ch name emptyTree))) ∧
    (∀ (tm : TmInfo) (ns : Nat) (pOk : Bool) (ts : List Char) (s : ScanSt),
      s.buf = [] → ts ≠ [] → nulChar ∉ ts → hasDirective ts = false →
      endsUnpairedPct ts = false →
      (scanLoop tm ns pOk (ts ++ [nulChar]) s).state.emits =
        s.emits ++ [(s.path, pushedRecord s.info
          (some (String.mk (renderFmt ts s.args).1)))]) ∧
    (∀ (tm : TmInfo) (ns : Nat) (pOk : Bool) (n : Nat) (mem : List Char)
        (s : ScanSt), s.buf = [] →
      scanLoop tm ns pOk (dirChars n ++ mem) s =
        scanLoop tm ns pOk mem (descendN tm ns pOk n s) ∧
      (descendN tm ns pOk n s).emits = s.emits) := by
  refine ⟨?_, flushDescend_empty_buf, ?_, ?_, ?_, ?_, ?_⟩
  · intro tm ns pOk mem s
    rw [scanLoop_pct_cons, if_pos rfl]
  · intro tm ns pOk s h
    obtain ⟨h1, h2, h3, _⟩ := flushDescend_nonempty_buf tm ns pOk s h
    exact ⟨h1, h2, h3⟩
  · intro tm ns pOk junk s
    exact ⟨scanLoop_nul_head tm ns pOk junk s, finalFlush_emits_iff tm ns pOk s⟩
  · intro logs ch name
    by_cases h : forestHas ch name
    · simp [createJsonObjectAt, modifyAt, h]
    · simp [createJsonObjectAt, modifyAt, h]
  · intro tm ns pOk ts s hb hne hmem hdir hend
    rw [scanLoop_no_dir_aux tm ns pOk ts.length ts le_rfl hmem hdir hend s]
    show (finalFlush tm ns pOk { s with buf := s.buf ++ ts }).emits = _
    rw [hb, List.nil_append, finalFlush_emits_iff]
    have he : effBuf ({ s with buf := ts } : ScanSt).buf = ts := effBuf_no_nul hmem
    rw [he, if_neg hne]
  · intro tm ns pOk n mem s h
    exact ⟨dirChars_descend tm ns pOk n mem s,
      (descendN_empty_buf tm ns pOk n s h).1⟩

/-- Witness for C5: a concrete scan of the one-fragment template m emits one
record at the root, and two consecutive directives descend twice without
emitting. -/
theorem c5_flush_semantics_witness :
    (scanLoop tmA 0 true (['m'] ++ [nulChar])
        ⟨activeState, [], [], [], ⟨['t'], 4, none, none, 0⟩, []⟩).state.emits =
      [] ++ [([], pushedRecord ⟨['t'], 4, none, none, 0⟩
        (some (String.mk (renderFmt ['m'] []).1)))] ∧
    (descendN tmA 0 true 2
        ⟨activeState, [], [], [CArg.str "a", CArg.str "b"],
          ⟨['t'], 4, none, none, 0⟩, []⟩).emits = [] :=
  ⟨c5_flush_semantics.2.2.2.2.2.1 tmA 0 true ['m']
      ⟨activeState, [], [], [], ⟨['t'], 4, none, none, 0⟩, []⟩
      rfl (by decide) (by decide) (by decide) (by decide),
   (c5_flush_semantics.2.2.2.2.2.2 tmA 0 true 2 []
      ⟨activeState, [], [], [CArg.str "a", CArg.str "b"],
        ⟨['t'], 4, none, none, 0⟩, []⟩ rfl).2⟩

/-- Full-state form of an empty-buffer descent. -/
theorem flushDescend_empty_eq (tm : TmInfo) (ns : Nat) (pOk : Bool)
    (s : ScanSt) (h : s.buf = []) :
    flushDescend tm ns pOk s =
      { s with
          st := { s.st with rootNode := s.st.rootNode.map fun r =>
            createJsonObjectAt r s.path (takeStrArg s.args).1 },
          args := (takeStrArg s.args).2,
          path := s.path ++ [(takeStrArg s.args).1] } := by
  unfold flushDescend
  rw [if_pos (show effBuf s.buf = [] by rw [h]; rfl)]

/-- The terminal flush with a non-empty buffer is exactly one emission. -/
theorem finalFlush_nonempty_eq (tm : TmInfo) (ns : Nat) (pOk : Bool)
    (s : ScanSt) (h : ¬effBuf s.buf = []) :
    finalFlush tm ns pOk s = emitStep tm ns pOk s := by
  unfold finalFlush
  rw [if_neg h]

/-- Below the rotation threshold a push only appends and counts. -/
theorem pushLog_no_rotate (st : GState) (path : List String) (info : LogInfo)
    (msg : String) (tm : TmInfo) (ns : Nat) (pOk : Bool)
    (h : st.logCount + 1 ≤ 500) :
    cJSONLoggerPushLog st path info msg tm ns pOk =
      { st with
          rootNode := st.rootNode.map fun r =>
            appendRecordAt r path (pushedRecord info (some msg)),
          logCount := st.logCount + 1 } := by
  unfold cJSONLoggerPushLog
  rw [if_neg (show ¬(st.logCount + 1 > 500) from by omega)]

/-- Beyond the rotation threshold a push appends and then rotates. -/
theorem pushLog_rotate (st : GState) (path : List String) (info : LogInfo)
    (msg : String) (tm : TmInfo) (ns : Nat) (pOk : Bool)
    (h : st.logCount + 1 > 500) :
    cJSONLoggerPushLog st path info msg tm ns pOk =
      rotateTotal
        { st with
            rootNode := st.rootNode.map fun r =>
              appendRecordAt r path (pushedRecord info (some msg)),
            logCount := st.logCount + 1 } tm ns pOk := by
  unfold cJSONLoggerPushLog
  rw [if_pos (show st.logCount + 1 > 500 from h)]

/-- The record every call of the C4 scenario emits. -/
def c4Rec : List (String × JVal) :=
  pushedRecord ⟨formatTimeStamp tmA 0, 4, none, none, 0⟩ (some "m")

/-- The in-memory tree after n accepted records under node x. -/
def c4Tree : Nat → JTree
  | 0 => emptyTree
  | n + 1 =>
    JTree.node []
      (JForest.cons "x" (JTree.node (List.replicate (n + 1) c4Rec) JForest.nil)
        JForest.nil)

/-- One scenario call: log at INFO with template percent-1-m descending into
node x and emitting the record m there. -/
def c4Step (st : GState) : GState :=
  cJSONLoggerLog st 4 ['%', '1', 'm'] [CArg.str "x"] tmA 0 true

/-- The scenario: n such calls starting from the freshly initialized
logger. -/
def c4Run : Nat → GState
  | 0 => activeState
  | n + 1 => c4Step (c4Run n)

/-- Evaluation of one scenario call down to its push. -/
theorem c4Step_eq (st : GState) (r : JTree) (hlev : st.logLevel = 4)
    (hr : st.rootNode = some r) :
    c4Step st = cJSONLoggerPushLog
      { st with rootNode := some (createJsonObjectAt r [] "x") }
      ["x"] ⟨formatTimeStamp tmA 0, 4, none, none, 0⟩ "m" tmA 0 true := by
  unfold c4Step cJSONLoggerLog
  rw [if_neg (show ¬(0 < (4 : Int) ∧ st.logLevel < 4 ∧ (4 : Int) < 6) from by
    rintro ⟨_, h2, _⟩
    rw [hlev] at h2
    omega)]
  rw [if_neg (by decide : ¬(255 < strlenChars ['%', '1', 'm']))]
  rw [hr]
  show (scanLoop tmA 0 true (pctChar :: jnoChar :: 'm' :: [nulChar])
      ⟨st, [], [], [CArg.str "x"],
        ⟨formatTimeStamp tmA 0, 4, none, none, 0⟩, []⟩).state.st = _
  rw [scanLoop_pct_cons, if_pos rfl, flushDescend_empty_eq tmA 0 true _ rfl,
    scanLoop_lit tmA 0 true 'm' [nulChar] _ (by decide) (by decide),
    scanLoop_nul_head, finalFlush_nonempty_eq tmA 0 true _
      (show ¬(effBuf (([] : List Char) ++ ['m']) = []) by decide)]
  rw [hr]
  rfl

/-- One call's tree effect: descend (reusing or creating x) then append the
record. -/
theorem c4_tree_step (n : Nat) :
    appendRecordAt (createJsonObjectAt (c4Tree n) [] "x") ["x"] c4Rec =
      c4Tree (n + 1) := by
  cases n with
  | zero => rfl
  | succ m =>
    show (JTree.node []
        (JForest.cons "x"
          (JTree.node (List.replicate (m + 1) c4Rec ++ [c4Rec]) JForest.nil)
          JForest.nil) : JTree) =
      c4Tree (m + 1 + 1)
    unfold c4Tree
    rw [← List.replicate_succ']

/-- Closed form of the first five hundred calls: all records stay in memory
under x, the counter equals the number of calls, and nothing has touched
the registry or the disk. -/
theorem c4Run_closed :
    ∀ n : Nat, n ≤ 500 →
      c4Run n = { activeState with rootNode := some (c4Tree n), logCount := n } := by
  intro n
  induction n with
  | zero => intro h; rfl
  | succ m ih =>
    intro h
    have hm := ih (by omega)
    show c4Step (c4Run m) = _
    rw [hm, c4Step_eq _ (c4Tree m) rfl rfl,
      pushLog_no_rotate _ _ _ _ _ _ _ (by show m + 1 ≤ 500; omega)]
    show ({ activeState with
        rootNode := some (appendRecordAt (createJsonObjectAt (c4Tree m) [] "x")
          ["x"] c4Rec),
        logCount := m + 1 } : GState) = _
    rw [c4_tree_step m]

/-- The 501st call pushes its record, sees the counter exceed 500, and
rotates: counter reset, the rotated file holds all 501 records, and a fresh
empty root is installed. -/
theorem c4Run_501 :
    c4Run 501 =
      { activeState with
          rootNode := some emptyTree,
          logCount := 0,
          queue := some ⟨[some (rotatedPathOf tmA 0 "log.json"),
            none, none, none, none], 0, 1, 1⟩,
          disk := [(rotatedPathOf tmA 0 "log.json", some (c4Tree 501))] } := by
  show c4Step (c4Run 500) = _
  rw [c4Run_closed 500 le_rfl, c4Step_eq _ (c4Tree 500) rfl rfl,
    pushLog_rotate _ _ _ _ _ _ _ (by show 500 + 1 > 500; omega)]
  show rotateTotal
      { activeState with
          rootNode := some (appendRecordAt (createJsonObjectAt (c4Tree 500) [] "x")
            ["x"] c4Rec),
          logCount := 501 } tmA 0 true = _
  rw [c4_tree_step 500]
  rfl

/-- C4 counterexample: after 501 accepted records the single rotated file
holds all 501 records under x, not 500 as claimed. -/
theorem c4_rotated_file_contents_cex :
    diskGet (c4Run 501).disk (rotatedPathOf tmA 0 "log.json") =
      some (some (c4Tree 501)) ∧
    recordsAt (c4Tree 501) ["x"] = 501 ∧ (501 : Nat) ≠ 500 := by
  refine ⟨?_, ?_, by omega⟩
  · rw [c4Run_501]
    rfl
  · show (List.replicate 501 c4Rec).length = 501
    rw [List.length_replicate]

/-- C4 amended: starting from a fresh logger, no rotation happens during the
first 500 accepted records (the counter tracks the call count and the disk
stays empty); the 501st append makes the counter exceed 500 and fires
exactly one rotation before returning: the counter is reset to zero, a
fresh empty root is installed, and the single rotated file on disk holds
all 501 records under x (the record that triggered the rotation is pushed
into the tree before the counter check, so it is serialized too). -/
theorem c4_rotation_amended :
    (∀ n : Nat, n ≤ 500 → (c4Run n).disk = [] ∧ (c4Run n).logCount = n) ∧
    (c4Run 501).logCount = 0 ∧
    (c4Run 501).rootNode = some emptyTree ∧
    (c4Run 501).disk = [(rotatedPathOf tmA 0 "log.json", some (c4Tree 501))] ∧
    recordsAt (c4Tree 501) ["x"] = 501 := by
  refine ⟨?_, ?_, ?_, ?_, ?_⟩
  · intro n h
    rw [c4Run_closed n h]
    exact ⟨rfl, rfl⟩
  · rw [c4Run_501]
  · rw [c4Run_501]
  · rw [c4Run_501]
  · show (List.replicate 501 c4Rec).length = 501
    rw [List.length_replicate]

/-- Witness for C4 amended: after three calls the disk is untouched and the
counter reads three. -/
theorem c4_rotation_amended_witness :
    (c4Run 3).disk = [] ∧ (c4Run 3).logCount = 3 :=
  c4_rotation_amended.1 3 (by omega)
